import Mathlib

/-!
# Flowgate core: shallow embedding and verification

This file embeds the core of the flowgate pipeline engine in Lean 4 and
proves properties of the embedded code.  The embedding follows the Go
sources: pure Go functions become Lean functions on `String`, `Nat` and
lists; filesystem state is threaded explicitly as an association list
from relative paths to byte lists; fallible functions return `Except`
or pair results with error strings the way the Go code pairs values
with `error`; subprocess and model-backend behaviour, which is external
to the program, enters as explicit function parameters.

32-bit machine arithmetic in the SHA-256 port is `Nat` arithmetic with
an explicit `% 2^32`.  Strings are hashed through their character codes,
which coincides with Go's UTF-8 byte hashing on the ASCII data used
throughout.
-/

set_option maxRecDepth 100000

deriving instance DecidableEq for Except

namespace Flowgate

/-! ## SHA-256 (port of the `crypto/sha256` usage)

The Go code uses `sha256.Sum256` followed by `hex.EncodeToString`.
`sha256hex` below is a full port of FIPS 180-4 SHA-256 over byte lists,
producing the lowercase hex digest string. -/

def M32 : Nat := 4294967296

def rotr (n x : Nat) : Nat :=
  ((x >>> n) ||| (x <<< (32 - n))) % M32

def shr (n x : Nat) : Nat := x >>> n

def add32 (a b : Nat) : Nat := (a + b) % M32

def bigSigma0 (x : Nat) : Nat := (rotr 2 x) ^^^ (rotr 13 x) ^^^ (rotr 22 x)
def bigSigma1 (x : Nat) : Nat := (rotr 6 x) ^^^ (rotr 11 x) ^^^ (rotr 25 x)
def smallSigma0 (x : Nat) : Nat := (rotr 7 x) ^^^ (rotr 18 x) ^^^ (shr 3 x)
def smallSigma1 (x : Nat) : Nat := (rotr 17 x) ^^^ (rotr 19 x) ^^^ (shr 10 x)

def ch (x y z : Nat) : Nat := (x &&& y) ^^^ ((x ^^^ (M32 - 1)) &&& z)
def maj (x y z : Nat) : Nat := (x &&& y) ^^^ (x &&& z) ^^^ (y &&& z)

def shaK : List Nat :=
  [1116352408, 1899447441, 3049323471, 3921009573, 961987163, 1508970993,
   2453635748, 2870763221, 3624381080, 310598401, 607225278, 1426881987,
   1925078388, 2162078206, 2614888103, 3248222580, 3835390401, 4022224774,
   264347078, 604807628, 770255983, 1249150122, 1555081692, 1996064986,
   2554220882, 2821834349, 2952996808, 3210313671, 3336571891, 3584528711,
   113926993, 338241895, 666307205, 773529912, 1294757372, 1396182291,
   1695183700, 1986661051, 2177026350, 2456956037, 2730485921, 2820302411,
   3259730800, 3345764771, 3516065817, 3600352804, 4094571909, 275423344,
   430227734, 506948616, 659060556, 883997877, 958139571, 1322822218,
   1537002063, 1747873779, 1955562222, 2024104815, 2227730452, 2361852424,
   2428436474, 2756734187, 3204031479, 3329325298]

def shaH0 : List Nat :=
  [1779033703, 3144134277, 1013904242, 2773480762,
   1359893119, 2600822924, 528734635, 1541459225]

/-- SHA-256 padding: append 0x80, zeros, and the 64-bit big-endian bit length. -/
def padMessage (msg : List Nat) : List Nat :=
  let len := msg.length
  let bitLen := len * 8
  let zeros := (64 - ((len + 9) % 64)) % 64
  msg ++ [0x80] ++ List.replicate zeros 0 ++
    [(bitLen >>> 56) % 256, (bitLen >>> 48) % 256, (bitLen >>> 40) % 256, (bitLen >>> 32) % 256,
     (bitLen >>> 24) % 256, (bitLen >>> 16) % 256, (bitLen >>> 8) % 256, bitLen % 256]

/-- Group bytes into 32-bit big-endian words. -/
def toWords : List Nat → List Nat
  | b0 :: b1 :: b2 :: b3 :: rest => (((b0 * 256 + b1) * 256 + b2) * 256 + b3) :: toWords rest
  | _ => []

/-- Split a word list into 16-word blocks. -/
def chunks16 : List Nat → List (List Nat)
  | a0 :: a1 :: a2 :: a3 :: a4 :: a5 :: a6 :: a7 ::
    a8 :: a9 :: a10 :: a11 :: a12 :: a13 :: a14 :: a15 :: rest =>
    [a0, a1, a2, a3, a4, a5, a6, a7, a8, a9, a10, a11, a12, a13, a14, a15] :: chunks16 rest
  | _ => []

/-- Extend 16 words by `i` further schedule words. -/
def extendSchedule (w : List Nat) : Nat → List Nat
  | 0 => w
  | n + 1 =>
    let w' := extendSchedule w n
    let idx := w'.length
    if idx < 16 then w'
    else
      let a := w'.getD (idx - 16) 0
      let b := w'.getD (idx - 15) 0
      let c := w'.getD (idx - 7) 0
      let d := w'.getD (idx - 2) 0
      w' ++ [add32 (add32 (add32 a (smallSigma0 b)) c) (smallSigma1 d)]

def schedule (block : List Nat) : List Nat := extendSchedule block 48

def shaRound (state : List Nat) (kw : Nat × Nat) : List Nat :=
  match state with
  | [a, b, c, d, e, f, g, h] =>
    let t1 := add32 (add32 (add32 (add32 h (bigSigma1 e)) (ch e f g)) kw.1) kw.2
    let t2 := add32 (bigSigma0 a) (maj a b c)
    [add32 t1 t2, a, b, c, add32 d t1, e, f, g]
  | s => s

def compress (h : List Nat) (block : List Nat) : List Nat :=
  let w := schedule block
  let final := (shaK.zip w).foldl shaRound h
  (h.zip final).map fun p => add32 p.1 p.2

def sha256Words (msg : List Nat) : List Nat :=
  (chunks16 (toWords (padMessage msg))).foldl compress shaH0

def hexDigit (n : Nat) : Char :=
  if n < 10 then Char.ofNat (48 + n) else Char.ofNat (87 + n)

def word32ToHex (n : Nat) : List Char :=
  [hexDigit ((n >>> 28) % 16), hexDigit ((n >>> 24) % 16), hexDigit ((n >>> 20) % 16),
   hexDigit ((n >>> 16) % 16), hexDigit ((n >>> 12) % 16), hexDigit ((n >>> 8) % 16),
   hexDigit ((n >>> 4) % 16), hexDigit (n % 16)]

/-- Hex-encoded SHA-256 digest of a byte list
(`hex.EncodeToString(sha256.Sum256(data))` in the Go sources). -/
def sha256hex (msg : List Nat) : String :=
  String.mk ((sha256Words msg).flatMap word32ToHex)

/-- Bytes of a string.  For the ASCII strings the engine hashes this is
exactly Go's `[]byte(s)`. -/
def strBytes (s : String) : List Nat := s.data.map Char.toNat

/-- Port of `hashString` (pipeline/run.go): hex sha256 of a string. -/
def hashString (value : String) : String := sha256hex (strBytes value)

/-! ## Lexical path functions (port of `path/filepath` on slash paths)

The Go code runs on slash-separated paths (`filepath.Separator = '/'`);
`splitPath`, `cleanPath`, `joinPath`, `absPath` and `relPath` port
`strings.Split(p, "/")`, `filepath.Clean`, `filepath.Join`,
`filepath.Abs` and `filepath.Rel`.  `filepath.Abs` consults the process
working directory, so `absPath` takes it as the explicit `cwd`
argument. -/

def splitCharList (c : Char) : List Char → List Char → List (List Char)
  | cur, [] => [cur.reverse]
  | cur, x :: xs =>
    if x = c then cur.reverse :: splitCharList c [] xs
    else splitCharList c (x :: cur) xs

/-- `strings.Split(s, "/")`. -/
def splitPath (s : String) : List String :=
  (splitCharList '/' [] s.data).map String.mk

/-- `filepath.IsAbs` on unix. -/
def isAbsPath (s : String) : Bool :=
  match s.data with
  | [] => false
  | c :: _ => c = '/'

/-- The effect of a `".."` segment on the (reversed) accumulator of
`cleanSegsAux`: it pops a previous plain segment, stays when the
accumulator is a run of `".."`, and disappears at the root of a rooted
path. -/
def ddStep (rooted : Bool) : List String → List String
  | [] => if rooted then [] else [".."]
  | a :: tl => if a = ".." then ".." :: a :: tl else tl

/-- Worker for `cleanPath`: processes segments left to right, keeping the
accepted segments in reverse order. -/
def cleanSegsAux (rooted : Bool) : List String → List String → List String
  | acc, [] => acc
  | acc, seg :: rest =>
    if seg = "" ∨ seg = "." then cleanSegsAux rooted acc rest
    else if seg = ".." then cleanSegsAux rooted (ddStep rooted acc) rest
    else cleanSegsAux rooted (seg :: acc) rest

def cleanSegs (rooted : Bool) (segs : List String) : List String :=
  (cleanSegsAux rooted [] segs).reverse

def joinSegs : List String → String
  | [] => ""
  | [s] => s
  | s :: rest => s ++ "/" ++ joinSegs rest

/-- `filepath.Clean` on unix. -/
def cleanPath (s : String) : String :=
  if s = "" then "."
  else
    let rooted := isAbsPath s
    let segs := cleanSegs rooted (splitPath s)
    if rooted then "/" ++ joinSegs segs
    else if segs.isEmpty then "." else joinSegs segs

/-- `filepath.Join(a, b)` on unix: empty elements are skipped, the rest is
joined with `/` and cleaned. -/
def joinPath (a b : String) : String :=
  if a = "" && b = "" then ""
  else if a = "" then cleanPath b
  else if b = "" then cleanPath a
  else cleanPath (a ++ "/" ++ b)

/-- `filepath.Abs` relative to an explicit working directory. -/
def absPath (cwd p : String) : String :=
  if isAbsPath p then cleanPath p else joinPath cwd p

/-- Segment list of an already-cleaned path, dropping the root marker. -/
def segsOfClean (p : String) : List String :=
  if p = "/" || p = "." then []
  else if isAbsPath p then (splitPath p).drop 1
  else splitPath p

def absSegs (cwd p : String) : List String := segsOfClean (absPath cwd p)

/-- The segment view of a path after lexical cleaning: the cleaned
segments of an absolute path `q` are `pathSegs q`. -/
def pathSegs (q : String) : List String :=
  cleanSegs (isAbsPath q) (splitPath q)

def dropCommon : List String → List String → List String × List String
  | a :: as1, b :: bs1 =>
    if a = b then dropCommon as1 bs1 else (a :: as1, b :: bs1)
  | a, b => (a, b)

/-- `filepath.Rel` on unix slash paths (no volume names). -/
def relPath (basep targp : String) : Except String String :=
  let base := cleanPath basep
  let targ := cleanPath targp
  if targ = base then .ok "."
  else if isAbsPath base != isAbsPath targ then
    .error ("Rel: cannot make " ++ targ ++ " relative to " ++ base)
  else
    let rem := dropCommon (segsOfClean base) (segsOfClean targ)
    if rem.1.head? = some ".." then
      .error ("Rel: cannot make " ++ targ ++ " relative to " ++ base)
    else if rem.1.isEmpty then .ok (joinSegs rem.2)
    else .ok (joinSegs (List.replicate rem.1.length ".." ++ rem.2))

/-- Character-list prefix test (`strings.HasPrefix` on the ASCII data in use). -/
def strStarts (s pre : String) : Bool :=
  s.data.take pre.data.length = pre.data

/-- `strings.TrimSpace` (ASCII whitespace). -/
def trimSpaceStr (s : String) : String :=
  String.mk (((s.data.dropWhile Char.isWhitespace).reverse.dropWhile Char.isWhitespace).reverse)

/-- `strings.TrimPrefix`. -/
def trimPrefixStr (s pre : String) : String :=
  if strStarts s pre then String.mk (s.data.drop pre.data.length) else s

/-! ## `pkg/workspace`: unified-diff application and path sandboxing

Filesystem state for the workspace is an association list from path to
file content string; `os.WriteFile` updates or prepends an entry,
`os.Remove` filters it out.  File modes are outside the model. -/

abbrev StrFS := List (String × String)

def fsWriteS (fs : StrFS) (p v : String) : StrFS :=
  if (fs.lookup p).isSome then fs.map (fun e => if e.1 = p then (p, v) else e)
  else (p, v) :: fs

def fsRemoveS (fs : StrFS) (p : String) : StrFS :=
  fs.filter (fun e => e.1 ≠ p)

/-- A unified-diff hunk (`workspace.Hunk`). -/
structure Hunk where
  oldStart : Int
  oldLinesN : Int
  newStart : Int
  newLinesN : Int
  lines : List String
deriving DecidableEq, Repr

/-- A per-file patch (`workspace.FilePatch`). -/
structure FilePatch where
  oldPath : String
  newPath : String
  hunks : List Hunk
deriving DecidableEq, Repr

/-- Port of `splitLines`: empty content gives no lines, a single trailing
newline is stripped, then split on newlines. -/
def splitLines (content : String) : List String :=
  if content = "" then []
  else
    let trimmed :=
      if content.data.getLast? = some '\n' then String.mk content.data.dropLast else content
    (splitCharList '\n' [] trimmed.data).map String.mk

/-- One body line of a hunk, acting on `(accumulated output, index into the
original lines)`.  This is the loop body of `applyHunks` (part of the
workspace diff applier): an empty body line is appended to the output
without consuming an original line; `' '` and `'-'` lines must match the
original at the current index; `'+'` lines are inserted. -/
def hunkLineStep (oldLines : List String) (st : List String × Nat) (line : String) :
    Except String (List String × Nat) :=
  if line = "" then .ok (st.1 ++ [""], st.2)
  else
    match line.data with
    | [] => .ok (st.1 ++ [""], st.2)
    | c :: rest =>
      let text := String.mk rest
      if c = ' ' then
        if st.2 < oldLines.length ∧ oldLines.getD st.2 "" = text then
          .ok (st.1 ++ [text], st.2 + 1)
        else .error ("context mismatch: " ++ text)
      else if c = '-' then
        if st.2 < oldLines.length ∧ oldLines.getD st.2 "" = text then
          .ok (st.1, st.2 + 1)
        else .error ("delete mismatch: " ++ text)
      else if c = '+' then .ok (st.1 ++ [text], st.2)
      else .error ("invalid hunk line: " ++ line)

def applyHunkLines (oldLines : List String) :
    List String → List String × Nat → Except String (List String × Nat)
  | [], st => .ok st
  | l :: rest, st =>
    match hunkLineStep oldLines st l with
    | .error e => .error e
    | .ok st' => applyHunkLines oldLines rest st'

/-- One hunk of `applyHunks`: position at `oldStart - 1`, copy the skipped
original lines, then process the body lines.  Out-of-order hunks that
would slice backwards abort (a Go slice-bounds panic in the source). -/
def applyOneHunk (oldLines : List String) (st : List String × Nat) (hunk : Hunk) :
    Except String (List String × Nat) :=
  if hunk.oldStart < 0 then .error "invalid hunk start"
  else
    let target : Int := if hunk.oldStart - 1 < 0 then 0 else hunk.oldStart - 1
    if target > (oldLines.length : Int) then .error "hunk starts beyond file length"
    else if target < (st.2 : Int) then .error "slice bounds out of range"
    else
      let t := target.toNat
      applyHunkLines oldLines hunk.lines (st.1 ++ (oldLines.drop st.2).take (t - st.2), t)

def applyHunksAux (oldLines : List String) :
    List Hunk → List String × Nat → Except String (List String × Nat)
  | [], st => .ok st
  | h :: rest, st =>
    match applyOneHunk oldLines st h with
    | .error e => .error e
    | .ok st' => applyHunksAux oldLines rest st'

/-- Port of `applyHunks` (workspace diff applier). -/
def applyHunks (original : String) (hunks : List Hunk) : Except String String :=
  let oldLines := splitLines original
  match applyHunksAux oldLines hunks ([], 0) with
  | .error e => .error e
  | .ok st => .ok (String.intercalate "\n" (st.1 ++ oldLines.drop st.2))

/-- Port of `workspace.safeJoin`: reject empty, absolute, and cleaned paths
that are `"."` or start with `".."`; join under the root and require the
`filepath.Rel` check not to escape. -/
def safeJoin (root rel : String) : Except String String :=
  if rel = "" then .error "empty path"
  else if isAbsPath rel then .error ("absolute paths are not allowed: " ++ rel)
  else
    let cleaned := cleanPath rel
    if cleaned = "." ∨ strStarts cleaned ".." = true then .error ("invalid path: " ++ rel)
    else
      let joined := joinPath root cleaned
      match relPath root joined with
      | .error _ => .error ("path escapes workspace: " ++ rel)
      | .ok relCheck =>
        if strStarts relCheck ".." then .error ("path escapes workspace: " ++ rel)
        else .ok joined

/-- `normalizeDiffPath`. -/
def normalizeDiffPath (path : String) : String :=
  trimPrefixStr (trimPrefixStr (trimSpaceStr path) "a/") "b/"

/-- A planned file operation (`workspace.fileOp`; modes out of the model). -/
structure FileOp where
  path : String
  relative : String
  content : String
  delete : Bool
deriving DecidableEq, Repr

/-- Port of `buildFileOp`: plan one file patch, reading the original
content from the workspace file system. -/
def buildFileOp (fs : StrFS) (workspacePath : String) (patch : FilePatch) :
    Except String FileOp :=
  let oldPath := normalizeDiffPath patch.oldPath
  let newPath := normalizeDiffPath patch.newPath
  if newPath = "/dev/null" then
    if oldPath = "/dev/null" then .error "invalid patch with both paths /dev/null"
    else
      match safeJoin workspacePath oldPath with
      | .error e => .error e
      | .ok path => .ok { path := path, relative := oldPath, content := "", delete := true }
  else
    match safeJoin workspacePath newPath with
    | .error e => .error e
    | .ok path =>
      let original := if oldPath ≠ "/dev/null" then ((fs.lookup path).getD "") else ""
      match applyHunks original patch.hunks with
      | .error e => .error ("apply patch " ++ newPath ++ ": " ++ e)
      | .ok updated =>
        .ok { path := path, relative := newPath, content := updated, delete := false }

/-- Planning phase of `applyPatches`: every patch is planned (and every
target path validated) before any write or delete executes. -/
def planPatchOps (fs : StrFS) (workspacePath : String) :
    List FilePatch → Except String (List FileOp)
  | [] => .ok []
  | p :: rest =>
    match buildFileOp fs workspacePath p with
    | .error e => .error e
    | .ok op =>
      match planPatchOps fs workspacePath rest with
      | .error e => .error e
      | .ok ops => .ok (op :: ops)

/-- Result record of a workspace apply (`workspace.ApplyResult`). -/
structure ApplyResultW where
  appliedFiles : List String
  deletedFiles : List String
  usedUnifiedDiff : Bool
deriving DecidableEq, Repr

/-- Execution phase of `applyPatches`: runs the planned operations. -/
def execOps (fs : StrFS) : List FileOp → StrFS × List String × List String
  | [] => (fs, [], [])
  | op :: rest =>
    if op.delete then
      let r := execOps (fsRemoveS fs op.path) rest
      (r.1, r.2.1, op.relative :: r.2.2)
    else
      let r := execOps (fsWriteS fs op.path op.content) rest
      (r.1, op.relative :: r.2.1, r.2.2)

/-- Port of `applyPatches`: plan all operations, then execute them. -/
def applyPatches (fs : StrFS) (workspacePath : String) (patches : List FilePatch) :
    Except String (StrFS × ApplyResultW) :=
  if patches.isEmpty then .error "no patches to apply"
  else
    match planPatchOps fs workspacePath patches with
    | .error e => .error e
    | .ok ops =>
      let r := execOps fs ops
      .ok (r.1, { appliedFiles := r.2.1, deletedFiles := r.2.2, usedUnifiedDiff := true })

/-- Planning phase of `applyFileBlocks`: validates every target path with
`safeJoin` before any write executes. -/
def planBlockOps (workspacePath : String) :
    List (String × String) → Except String (List FileOp)
  | [] => .ok []
  | (rel, content) :: rest =>
    match safeJoin workspacePath rel with
    | .error e => .error e
    | .ok path =>
      match planBlockOps workspacePath rest with
      | .error e => .error e
      | .ok ops =>
        .ok ({ path := path, relative := rel, content := content, delete := false } :: ops)

/-- Port of `applyFileBlocks` (file iteration order made explicit as a list). -/
def applyFileBlocks (fs : StrFS) (workspacePath : String) (files : List (String × String)) :
    Except String (StrFS × ApplyResultW) :=
  if files.isEmpty then .error "no file blocks to apply"
  else
    match planBlockOps workspacePath files with
    | .error e => .error e
    | .ok ops =>
      let r := execOps fs ops
      .ok (r.1, { appliedFiles := r.2.1, deletedFiles := r.2.2, usedUnifiedDiff := false })

/-! ## `pkg/evidence`: content-addressed blob store

The run directory is an association list from run-relative path to byte
content.  `writeBlob` ports `Writer.WriteBlob`: `filepath.Join("blobs",
filename)` equals `"blobs/" ++ filename` because the sanitized kind and
the hex digest contain no separators or dot segments. -/

abbrev FS := List (String × List Nat)

def allowedKindChar (c : Char) : Bool :=
  ('a' ≤ c && c ≤ 'z') || ('0' ≤ c && c ≤ '9') || c = '_' || c = '-'

/-- Port of `sanitizeKind`: lowercase, keep `[a-z0-9_-]`, fall back to
`"blob"` when empty or nothing remains. -/
def sanitizeKind (kind : String) : String :=
  if kind = "" then "blob"
  else
    let kept := (kind.data.map Char.toLower).filter allowedKindChar
    if kept.isEmpty then "blob" else String.mk kept

/-- Port of `Writer.WriteBlob`: returns `(ref, sha, new file system)`.
When the content-addressed file already exists the call is a no-op. -/
def writeBlob (fs : FS) (kind : String) (content : List Nat) : String × String × FS :=
  let sanitized := sanitizeKind kind
  let sha := sha256hex content
  let ref := "blobs/" ++ sanitized ++ "-" ++ sha ++ ".txt"
  if (fs.lookup ref).isSome then (ref, sha, fs)
  else (ref, sha, (ref, content) :: fs)

/-! ## `pkg/gate`: command policy and command-gate evaluation

`CommandGate.Evaluate` spawns a subprocess only on the non-blocked path;
the subprocess outcome is external behaviour and enters as the explicit
`RunOutcome` argument.  `filepath.Abs` inside the confinement checks
consults the working directory, passed as `cwd`. -/

structure CommandTemplate where
  exec : String
  args : List String
deriving DecidableEq, Repr

def capabilityTemplates : List (String × List CommandTemplate) :=
  [("go_test", [⟨"go", ["test", "./..."]⟩, ⟨"go", ["test", "./pkg/..."]⟩,
                ⟨"go", ["test", "./cmd/..."]⟩]),
   ("go_vet", [⟨"go", ["vet", "./..."]⟩]),
   ("gofmt", [⟨"gofmt", ["-w", "\x7bpath\x7d"]⟩])]

def templatesForCapability (name : String) : Option (List CommandTemplate) :=
  capabilityTemplates.lookup name

def allowedPkgArgs : List String := ["./...", "./pkg/...", "./cmd/..."]

/-- Port of `confinedUnderWorkspace`: the candidate's absolute path must
equal the workspace's absolute path or extend it by a separator. -/
def confinedUnderWorkspace (cwd workspace candidate : String) : Bool × String :=
  let root := absPath cwd workspace
  let cand := absPath cwd candidate
  if cand = root then (true, "")
  else if strStarts cand (root ++ "/") then (true, "")
  else (false, "path escapes workspace")

/-- Port of `isWorkspaceConfined`: validates a `\x7bpath\x7d` template argument. -/
def isWorkspaceConfined (cwd workdir workspace arg : String) : Bool × String :=
  if workspace = "" then (false, "workspace root not set")
  else if isAbsPath arg then (false, "absolute paths are not allowed")
  else
    let cleanArg := cleanPath arg
    if cleanArg = "." then (false, "invalid path")
    else if (splitPath cleanArg).contains ".." then (false, "path traversal detected")
    else
      let baseResult : Except String String :=
        if workdir ≠ "" then
          let baseCandidate := if isAbsPath workdir then workdir else joinPath workspace workdir
          match confinedUnderWorkspace cwd workspace baseCandidate with
          | (false, reason) => .error ("workdir not confined: " ++ reason)
          | (true, _) => .ok baseCandidate
        else .ok workspace
      match baseResult with
      | .error r => (false, r)
      | .ok base =>
        let candidate := cleanPath (joinPath base cleanArg)
        match confinedUnderWorkspace cwd workspace candidate with
        | (false, reason) => (false, "path not confined: " ++ reason)
        | (true, _) => (true, "")

/-- Argument loop of `matchTemplates`.  In the Go source a failed
placeholder check sets `matched = false` and records `lastReason`, but the
`break` leaves only the `switch`, so the loop always runs over all
arguments; the fold mirrors that. -/
def matchArgsAux (cwd workspaceRoot workdir : String) :
    List (String × String) → Bool × String → Bool × String
  | [], st => st
  | (arg, value) :: rest, (matched, lastReason) =>
    let st' :=
      if arg = "\x7bpath\x7d" then
        let conf := isWorkspaceConfined cwd workdir workspaceRoot value
        if conf.1 then (matched, lastReason) else (false, conf.2)
      else if arg = "\x7bpkg\x7d" then
        if allowedPkgArgs.contains value then (matched, lastReason)
        else (false, "package argument not allowed")
      else if value ≠ arg then (false, lastReason)
      else (matched, lastReason)
    matchArgsAux cwd workspaceRoot workdir rest st'

def matchTemplatesAux (cwd workspaceRoot workdir : String) (command : List String) :
    String → List CommandTemplate → Bool × String
  | lastReason, [] =>
    if lastReason ≠ "" then (false, lastReason)
    else (false, "command does not match any allowed template")
  | lastReason, tmpl :: rest =>
    if tmpl.exec = "" then matchTemplatesAux cwd workspaceRoot workdir command lastReason rest
    else if command.head? ≠ some tmpl.exec then
      matchTemplatesAux cwd workspaceRoot workdir command lastReason rest
    else if command.length - 1 ≠ tmpl.args.length then
      matchTemplatesAux cwd workspaceRoot workdir command lastReason rest
    else
      let st := matchArgsAux cwd workspaceRoot workdir (tmpl.args.zip command.tail)
        (true, lastReason)
      if st.1 then (true, "")
      else matchTemplatesAux cwd workspaceRoot workdir command st.2 rest

/-- Port of `matchTemplates`. -/
def matchTemplates (cwd : String) (command : List String) (templates : List CommandTemplate)
    (workspaceRoot workdir : String) : Bool × String :=
  if templates.isEmpty then (true, "")
  else matchTemplatesAux cwd workspaceRoot workdir command "" templates

/-- Port of `isShellCommand`. -/
def isShellCommand : List String → Bool
  | c0 :: c1 :: _ => (c0 = "sh" || c0 = "bash" || c0 = "zsh") && c1 = "-c"
  | _ => false

/-- Port of `matchesAllowedExact`. -/
def matchesAllowedExact (command : List String) (allowed : List String) : Bool :=
  if command.isEmpty then false
  else
    let cmdString := trimSpaceStr (String.intercalate " " command)
    allowed.any fun entry =>
      let e := trimSpaceStr entry
      e ≠ "" && cmdString = e

structure CommandGate where
  name : String
  command : List String
  workdir : String
  allowed : List String
  denyShell : Bool
  workspaceRoot : String
  templates : List CommandTemplate
  policyMode : String
  capability : String
  shellApproved : Bool
deriving DecidableEq, Repr

/-- Port of `NewCommandGate`. -/
def newCommandGate (name : String) (command : List String) (workdir : String)
    (allowed : List String) (denyShell : Bool) (workspaceRoot : String)
    (templates : List CommandTemplate) (policyMode capability : String)
    (shellApproved : Bool) : Except String CommandGate :=
  if command.isEmpty then .error "command gate requires a command"
  else .ok
    { name := if name = "" then command.headD "" else name
      command := command, workdir := workdir, allowed := allowed
      denyShell := denyShell, workspaceRoot := workspaceRoot
      templates := templates, policyMode := policyMode
      capability := capability, shellApproved := shellApproved }

/-- Port of `CommandGate.policyBlockReason`. -/
def policyBlockReason (cwd : String) (g : CommandGate) : String :=
  if !g.denyShell && !g.shellApproved then "shell execution requires explicit approval"
  else if g.denyShell && isShellCommand g.command then "shell execution is denied by policy"
  else if !g.templates.isEmpty then
    let r := matchTemplates cwd g.command g.templates g.workspaceRoot g.workdir
    if r.1 then "" else r.2
  else if !g.allowed.isEmpty && !matchesAllowedExact g.command g.allowed then
    "command does not match any allowed template"
  else ""

/-- Diagnostics of a command gate (`gate.CommandDiagnostics`; the
marshalled JSON payload is modelled structurally, durations as 0). -/
structure CommandDiagnostics where
  command : List String
  workdir : String
  stdout : String
  stderr : String
  exitCode : Int
  durationMillis : Int
  errMsg : String
  blockedReason : String
  policyMode : String
  capability : String
deriving DecidableEq, Repr

structure Violation where
  rule : String
  severity : String
  message : String
  location : String
  suggestion : String
deriving DecidableEq, Repr

structure GateResultG where
  passed : Bool
  score : Int
  kind : String
  violations : List Violation
  repairHints : List String
  diagnostics : Option CommandDiagnostics
deriving DecidableEq, Repr

/-- Port of `gate.NewFailingResult`. -/
def newFailingResult (score : Int) (violations : List Violation) (hints : List String) :
    GateResultG :=
  { passed := false, score := score, kind := "", violations := violations
    repairHints := hints, diagnostics := none }

/-- Port of `CommandGate.resultFromDiagnostics`. -/
def resultFromDiagnostics (diag : CommandDiagnostics) (passed : Bool) : GateResultG :=
  { passed := passed, score := if passed then 0 else 100, kind := "command"
    violations := [], repairHints := [], diagnostics := some diag }

/-- Outcome of `exec.Cmd.Run`, the external subprocess behaviour:
either the process ran to an exit code (`nil` error or `*exec.ExitError`),
or it failed to start (any other error). -/
inductive RunOutcome where
  | exited (exitCode : Int) (stdout stderr : String)
  | startFailure (msg : String) (stdout stderr : String)
deriving DecidableEq, Repr

/-- Port of `CommandGate.Evaluate`.  The blocked branch returns before the
subprocess is created, so it does not consult the `RunOutcome`. -/
def mkViolation (rule message : String) : Violation :=
  { rule := rule, severity := "error", message := message, location := "", suggestion := "" }

def commandGateEvaluate (cwd : String) (g : CommandGate) (run : RunOutcome) : GateResultG :=
  let blockedReason := policyBlockReason cwd g
  if blockedReason ≠ "" then
    let diag : CommandDiagnostics :=
      { command := g.command, workdir := g.workdir, stdout := "", stderr := "",
        exitCode := 1, durationMillis := 0, errMsg := "",
        blockedReason := blockedReason, policyMode := g.policyMode,
        capability := g.capability }
    let base := resultFromDiagnostics diag false
    { base with violations := [mkViolation "command_blocked" blockedReason] }
  else
    match run with
    | .startFailure msg out errOut =>
      let diag : CommandDiagnostics :=
        { command := g.command, workdir := g.workdir, stdout := out, stderr := errOut,
          exitCode := 0, durationMillis := 0, errMsg := msg, blockedReason := "",
          policyMode := g.policyMode, capability := g.capability }
      let base := resultFromDiagnostics diag false
      { base with violations := [mkViolation "command_failed" "command failed to start"] }
    | .exited code out errOut =>
      let passed : Bool := code == 0
      let diag : CommandDiagnostics :=
        { command := g.command, workdir := g.workdir, stdout := out, stderr := errOut,
          exitCode := code, durationMillis := 0, errMsg := "", blockedReason := "",
          policyMode := g.policyMode, capability := g.capability }
      let base := resultFromDiagnostics diag passed
      if passed then base
      else
        { base with
          violations := [mkViolation "command_failed" ("command exited with status " ++ toString code)],
          repairHints := if errOut ≠ "" then ["Review stderr output for failure details"] else [] }

/-! ## `pkg/attest`: attestation builder and verifier

The run directory is the `FS` association list from run-relative path to
bytes.  The sha256-hex digest is modelled as an arbitrary function `h`
into a digest type `D` (the code's digest is the injective
`hex ∘ sha256`); JSON parsing of the run and stage records is external
(`encoding/json`) and enters as the `parseRun` / `parseStage`
parameters.  Only the record fields the attest package consumes are
modelled.  `attSafeJoin` returns the cleaned run-relative path: the Go
function prefixes the constant absolute run-dir path, and its final
containment check always holds once the `..`-segment scan has passed.
`sort.Slice`, whose order within equal keys is unspecified, is modelled
as insertion sort. -/

structure GateClaim where
  name : String
  kind : String
  passed : Bool
  score : Int
deriving DecidableEq, Repr

structure SubjectA where
  workspace : String
  pipelineFile : String
  runID : String
  stage : String
deriving DecidableEq, Repr

structure ClaimA where
  passed : Bool
  gateCount : Nat
  gated : Bool
  gates : List GateClaim
deriving DecidableEq, Repr

structure EvidenceA where
  runJSON : String
  stageJSON : String
  blobs : List String
  gateLogs : List String
deriving DecidableEq, Repr

structure AttestationV0 (D : Type) where
  schema : String
  subject : SubjectA
  claim : ClaimA
  evidence : EvidenceA
  hashes : List (String × D)
deriving DecidableEq, Repr

/-- The fields of `evidence.GateRecord` consumed by the attest package. -/
structure GateRecord where
  name : String
  passed : Bool
  score : Int
  kind : String
deriving DecidableEq, Repr

/-- The fields of `evidence.AttemptRecord` consumed by the attest package. -/
structure AttemptRecA where
  promptRef : String
  outputRef : String
  succeeded : Bool
  applyError : String
deriving DecidableEq, Repr

/-- The fields of `evidence.StageRecord` consumed by the attest package. -/
structure StageRecA where
  gateResults : List GateRecord
  promptRef : String
  outputRef : String
  attempts : List AttemptRecA
deriving DecidableEq, Repr

/-- The fields of `evidence.RunRecord` consumed by the attest package. -/
structure RunRecA where
  id : String
  pipelineFile : String
  workspace : String
deriving DecidableEq, Repr

def toGateClaim (g : GateRecord) : GateClaim :=
  { name := g.name, kind := g.kind, passed := g.passed, score := g.score }

/-- The `(name, kind)` sort order used for claim gates. -/
def claimLE (a b : GateClaim) : Prop :=
  a.name < b.name ∨ (a.name = b.name ∧ a.kind ≤ b.kind)

instance : DecidableRel claimLE := fun _ _ =>
  inferInstanceAs (Decidable (_ ∨ _))

instance : IsTotal GateClaim claimLE where
  total a b := by
    rcases lt_trichotomy a.name b.name with hlt | heq | hgt
    · exact Or.inl (Or.inl hlt)
    · rcases le_total a.kind b.kind with hk | hk
      · exact Or.inl (Or.inr ⟨heq, hk⟩)
      · exact Or.inr (Or.inr ⟨heq.symm, hk⟩)
    · exact Or.inr (Or.inl hgt)

instance : IsTrans GateClaim claimLE where
  trans a b c hab hbc := by
    rcases hab with hab | ⟨hn, hk⟩
    · rcases hbc with hbc | ⟨hn', _⟩
      · exact Or.inl (hab.trans hbc)
      · exact Or.inl (hn' ▸ hab)
    · rcases hbc with hbc | ⟨hn', hk'⟩
      · exact Or.inl (hn ▸ hbc)
      · exact Or.inr ⟨hn.trans hn', hk.trans hk'⟩

def sortClaims (l : List GateClaim) : List GateClaim := List.insertionSort claimLE l

def strLE (a b : String) : Prop := a ≤ b

instance : DecidableRel strLE := fun a b => inferInstanceAs (Decidable (a ≤ b))

instance : IsTotal String strLE where
  total a b := le_total a b

instance : IsTrans String strLE where
  trans _ _ _ hab hbc := le_trans hab hbc

/-- `sort.Strings`. -/
def sortStrings (l : List String) : List String := List.insertionSort strLE l

/-- Drop empty entries and duplicates, keeping first occurrences
(`filepath.ToSlash` is the identity on slash paths). -/
def dedupRefs (seen : List String) : List String → List String
  | [] => []
  | x :: xs =>
    if x = "" then dedupRefs seen xs
    else if seen.contains x then dedupRefs seen xs
    else x :: dedupRefs (x :: seen) xs

/-- Port of `collectStageBlobs`. -/
def collectStageBlobs (record : StageRecA) : List String :=
  let blobs :=
    (if record.promptRef ≠ "" then [record.promptRef] else []) ++
    (if record.outputRef ≠ "" then [record.outputRef] else []) ++
    record.attempts.flatMap fun a =>
      (if a.promptRef ≠ "" then [a.promptRef] else []) ++
      (if a.outputRef ≠ "" then [a.outputRef] else [])
  sortStrings (dedupRefs [] blobs)

/-- Port of `findGateLogs`: the entries of `gates/` (one path level deep;
deeper paths belong to subdirectories, which the Go loop skips) whose
name starts with `<stage>-`. -/
def findGateLogs (fs : FS) (stageName : String) : List String :=
  let names := fs.filterMap fun e =>
    if strStarts e.1 "gates/" then
      let name := String.mk (e.1.data.drop 6)
      if name.data.contains '/' then none
      else if strStarts name (stageName ++ "-") then some ("gates/" ++ name)
      else none
    else none
  sortStrings names

/-- Port of `attest.safeJoin`, producing the cleaned run-relative path. -/
def attSafeJoin (rel : String) : Except String String :=
  if rel = "" then .error "empty path"
  else if isAbsPath rel then .error "absolute path not allowed"
  else if (splitPath rel).contains ".." then .error "path traversal detected"
  else
    let clean := cleanPath rel
    if clean = "." then .error "invalid path"
    else .ok clean

section Attest

variable {D : Type} [DecidableEq D]

/-- The `addHash` closure of `BuildAttestation`: hash a referenced file,
skipping empty and already-recorded references. -/
def addHash (h : List Nat → D) (fs : FS) (st : List (String × D)) (rel : String) :
    Except String (List (String × D)) :=
  if rel = "" then .ok st
  else if (st.lookup rel).isSome then .ok st
  else
    match attSafeJoin rel with
    | .error e => .error e
    | .ok clean =>
      match fs.lookup clean with
      | none => .error ("read " ++ rel)
      | some data => .ok (st ++ [(rel, h data)])

def addHashList (h : List Nat → D) (fs : FS) :
    List String → List (String × D) → Except String (List (String × D))
  | [], st => .ok st
  | r :: rest, st =>
    match addHash h fs st r with
    | .error e => .error e
    | .ok st' => addHashList h fs rest st'

/-- Port of `BuildAttestation`. -/
def buildAttestation (h : List Nat → D) (parseRun : List Nat → Option RunRecA)
    (parseStage : List Nat → Option StageRecA) (fs : FS) (runDir stageName : String) :
    Except String (AttestationV0 D) :=
  if runDir = "" then .error "runDir is required"
  else if stageName = "" then .error "stageName is required"
  else
    let stageRelPath := joinPath "stages" (stageName ++ ".json")
    match fs.lookup "run.json" with
    | none => .error "read run.json"
    | some runData =>
      match fs.lookup stageRelPath with
      | none => .error "read stage json"
      | some stageData =>
        match parseRun runData with
        | none => .error "parse run.json"
        | some runRecord =>
          match parseStage stageData with
          | none => .error "parse stage json"
          | some stageRecord =>
            let gateClaims := sortClaims (stageRecord.gateResults.map toGateClaim)
            let passed := stageRecord.gateResults.all (·.passed)
            let blobs := collectStageBlobs stageRecord
            let gateLogs := findGateLogs fs stageName
            match addHashList h fs ("run.json" :: stageRelPath :: (blobs ++ gateLogs)) [] with
            | .error e => .error e
            | .ok hs =>
              .ok
                { schema := "flowgate.attestation.v0"
                  subject :=
                    { workspace := runRecord.workspace
                      pipelineFile := runRecord.pipelineFile
                      runID := runRecord.id, stage := stageName }
                  claim :=
                    { passed := passed, gateCount := gateClaims.length
                      gated := decide (gateClaims.length > 0), gates := gateClaims }
                  evidence :=
                    { runJSON := "run.json", stageJSON := stageRelPath
                      blobs := blobs, gateLogs := gateLogs }
                  hashes := hs }

inductive VerifyErr where
  | runDirRequired
  | unknownSchema (schema : String)
  | invalidHashPath (rel : String)
  | missingEvidence (rel : String)
  | hashMismatch (rel : String)
  | invalidStagePath
  | readStageJSON
  | parseStageJSON
  | claimGatingMismatch
  | claimPassedMismatch
  | claimGatesMismatch
  | claimGateMismatch (name : String)
deriving DecidableEq, Repr

inductive SchemaMode where
  | legacy
  | v0
deriving DecidableEq, Repr

/-- Port of `parseSchemaMode`. -/
def parseSchemaMode (schema : String) : Except VerifyErr SchemaMode :=
  if schema = "" then .ok .legacy
  else if schema = "flowgate.attestation.v0" then .ok .v0
  else .error (.unknownSchema schema)

/-- The hash-checking loop of `VerifyAttestation`. -/
def checkHashes (h : List Nat → D) (fs : FS) :
    List (String × D) → Except VerifyErr Unit
  | [] => .ok ()
  | (rel, expected) :: rest =>
    match attSafeJoin rel with
    | .error _ => .error (.invalidHashPath rel)
    | .ok clean =>
      match fs.lookup clean with
      | none => .error (.missingEvidence rel)
      | some data =>
        if h data ≠ expected then .error (.hashMismatch rel)
        else checkHashes h fs rest

def compareGateClaims : List GateClaim → List GateClaim → Except VerifyErr Unit
  | a :: as1, b :: bs1 =>
    if a.name ≠ b.name ∨ a.kind ≠ b.kind ∨ a.passed ≠ b.passed ∨ a.score ≠ b.score then
      .error (.claimGateMismatch a.name)
    else compareGateClaims as1 bs1
  | _, _ => .ok ()

/-- Port of `verifyClaim`. -/
def verifyClaim (att : AttestationV0 D) (stageRecord : StageRecA) (mode : SchemaMode) :
    Except VerifyErr Unit :=
  let expectedGateCount := stageRecord.gateResults.length
  let claimPassed := stageRecord.gateResults.all (·.passed)
  let passCheck : Except VerifyErr Unit :=
    match mode with
    | .v0 =>
      let expectedGated := decide (expectedGateCount > 0)
      if att.claim.gateCount ≠ expectedGateCount ∨ att.claim.gated ≠ expectedGated then
        .error .claimGatingMismatch
      else
        let claimPassed := if !expectedGated then true else claimPassed
        if att.claim.passed ≠ claimPassed then .error .claimPassedMismatch else .ok ()
    | .legacy =>
      let lastAttemptSucceeded :=
        match stageRecord.attempts.getLast? with
        | some last => last.succeeded && last.applyError = ""
        | none => decide (stageRecord.gateResults.length > 0)
      let claimPassed := claimPassed && lastAttemptSucceeded
      if att.claim.passed ≠ claimPassed then .error .claimPassedMismatch else .ok ()
  match passCheck with
  | .error e => .error e
  | .ok _ =>
    if att.claim.gates.length ≠ stageRecord.gateResults.length then
      .error .claimGatesMismatch
    else
      compareGateClaims (sortClaims att.claim.gates)
        (sortClaims (stageRecord.gateResults.map toGateClaim))

/-- Port of `VerifyAttestation`. -/
def verifyAttestation (h : List Nat → D) (parseStage : List Nat → Option StageRecA)
    (att : AttestationV0 D) (fs : FS) (runDir : String) : Except VerifyErr Unit :=
  if runDir = "" then .error .runDirRequired
  else
    match parseSchemaMode att.schema with
    | .error e => .error e
    | .ok mode =>
      match checkHashes h fs att.hashes with
      | .error e => .error e
      | .ok _ =>
        match attSafeJoin att.evidence.stageJSON with
        | .error _ => .error .invalidStagePath
        | .ok stageClean =>
          match fs.lookup stageClean with
          | none => .error .readStageJSON
          | some stageData =>
            match parseStage stageData with
            | none => .error .parseStageJSON
            | some stageRecord => verifyClaim att stageRecord mode

/-- Invariant of the hash table built by `BuildAttestation`: every entry
records the digest of the referenced file at its cleaned path. -/
def HashInv (h : List Nat → D) (fs : FS) (st : List (String × D)) : Prop :=
  ∀ p ∈ st, ∃ data, attSafeJoin p.1 = .ok (cleanPath p.1) ∧
    fs.lookup (cleanPath p.1) = some data ∧ p.2 = h data

end Attest

/-! ## `pkg/pipeline`: the stage runner

`runStage` orchestrates one stage: render the prompt, then per attempt
generate, persist blobs, optionally apply, evaluate gates, and run the
repair/escalation loop.  External behaviour enters through `StageEnv`:
`gen` is `adapter.Generate` (producing the artifact content for each
attempt), `render` the template engine, `clone` is
`workspace.CloneToTemp`, `applyOut` is `workspace.ApplyOutput`, `cmdRun`
the subprocess, and `hollowEval` the external-check binary.  I/O writes
through the evidence writer are modelled as the threaded `FS`; blob-write
failures (which the Go code tolerates with a fallback) do not occur in
the model.  A `trace` of events records, in order, each backend
`Generate` call, each blob write, each temp clone and each workspace
apply, so that frame conditions can be stated. -/

structure ArtifactM where
  content : String
  adapter : String
  model : String
  prompt : String
  hash : String
deriving DecidableEq, Repr

/-- `Artifact.computeHash`: first 16 hex chars of sha256(content++adapter++model). -/
def computeArtifactHash (content adapter model : String) : String :=
  String.mk ((sha256hex (strBytes (content ++ adapter ++ model))).data.take 16)

/-- Port of `artifact.New` (id, version, timestamps out of the model). -/
def artifactNew (content adapter model prompt : String) : ArtifactM :=
  { content := content, adapter := adapter, model := model, prompt := prompt
    hash := computeArtifactHash content adapter model }

/-- `pipeline.Stage` (the fields the runner consumes). -/
structure Stage where
  name : String
  adapter : String
  model : String
  prompt : String
  gates : List String
  maxRetries : Int
  apply : Bool
  fallbackModel : String
deriving DecidableEq, Repr

/-- `pipeline.GateDefinition`. -/
structure GateDefinition where
  type : String
  command : List String
  allowedCommands : List String
  denyShell : Option Bool
  capability : String
  templates : List CommandTemplate
  workdir : String
  binaryPath : String
  contractPath : String
deriving DecidableEq, Repr

/-- `pipeline.Pipeline` (the fields the runner consumes). -/
structure PipelineM where
  name : String
  defaultAdapter : String
  defaultModel : String
  gates : List (String × GateDefinition)
  stages : List Stage
deriving DecidableEq, Repr

/-- An adapter's static interface (`Models()`); its `Generate` behaviour
is the `gen` parameter of `StageEnv`. -/
structure AdapterInfo where
  models : List String
deriving DecidableEq, Repr

def toLowerStr (s : String) : String := String.mk (s.data.map Char.toLower)

def fieldsChars : List Char → List Char → List String
  | cur, [] => if cur.isEmpty then [] else [String.mk cur.reverse]
  | cur, c :: cs =>
    if c.isWhitespace then
      if cur.isEmpty then fieldsChars [] cs
      else String.mk cur.reverse :: fieldsChars [] cs
    else fieldsChars (c :: cur) cs

/-- `strings.Fields`. -/
def fieldsStr (s : String) : List String := fieldsChars [] s.data

/-- A constructed gate instance: `hollowcheck` external-check gate or a
command gate. -/
inductive GateInstance where
  | hollow (binaryPath contractPath : String)
  | command (g : CommandGate)
deriving DecidableEq, Repr

/-- `Gate.Name()`: the hollowcheck gate always reports `"hollowcheck"`. -/
def gateInstanceName : GateInstance → String
  | .hollow _ _ => "hollowcheck"
  | .command g => g.name

/-- `NewHollowCheckGate`. -/
def newHollowCheckGate (binaryPath contractPath : String) : GateInstance :=
  .hollow (if binaryPath = "" then "hollowcheck" else binaryPath) contractPath

/-- Legacy `allowed_commands` entries parsed into templates. -/
def legacyTemplates : List String → List CommandTemplate
  | [] => []
  | entry :: rest =>
    match fieldsStr entry with
    | [] => legacyTemplates rest
    | f0 :: fs => { exec := f0, args := fs } :: legacyTemplates rest

/-- Port of `buildGateInstances`. -/
def buildGateInstances (pipe : PipelineM) (gateNames : List String)
    (workspacePath : String) (applyApproved : Bool) : Except String (List GateInstance) :=
  match gateNames with
  | [] => .ok []
  | name :: rest =>
    let restResult := fun (gi : GateInstance) =>
      match buildGateInstances pipe rest workspacePath applyApproved with
      | .error e => .error e
      | .ok gis => .ok (gi :: gis)
    if name = "hollowcheck" then restResult (newHollowCheckGate "" "")
    else
      match pipe.gates.lookup name with
      | none => .error ("gate " ++ name ++ " not defined")
      | some gdef =>
        let ty := toLowerStr gdef.type
        if ty = "hollowcheck" then
          restResult (newHollowCheckGate gdef.binaryPath gdef.contractPath)
        else if ty = "command" then
          let workdir :=
            if gdef.workdir = "" then workspacePath
            else if !isAbsPath gdef.workdir then joinPath workspacePath gdef.workdir
            else gdef.workdir
          let denyShell := gdef.denyShell.getD true
          let resolved : Except String (String × String × List CommandTemplate × List String) :=
            if gdef.capability ≠ "" then
              match templatesForCapability gdef.capability with
              | none => .error ("unknown capability " ++ gdef.capability)
              | some tmpls => .ok ("capability", gdef.capability, tmpls, [])
            else if !gdef.templates.isEmpty then
              .ok ("templates", "", gdef.templates, [])
            else if !gdef.allowedCommands.isEmpty then
              .ok ("legacy", "", legacyTemplates gdef.allowedCommands, gdef.allowedCommands)
            else .ok ("none", "", [], [])
          match resolved with
          | .error e => .error e
          | .ok (policyMode, capability, templates, allowed) =>
            match newCommandGate name gdef.command workdir allowed denyShell
                workspacePath templates policyMode capability applyApproved with
            | .error e => .error e
            | .ok g => restResult (.command g)
        else .error ("unsupported gate type " ++ gdef.type)

/-- Outcome of one `gate.Evaluate` call: `(res, err)`. -/
structure GateEval where
  res : Option GateResultG
  err : Option String
deriving DecidableEq, Repr

/-- A gate result entry collected by the runner (`pipeline.GateResult`). -/
structure GateResultEntry where
  name : String
  result : Option GateResultG
  errMsg : Option String
deriving DecidableEq, Repr

structure StageEnv where
  cwd : String
  render : String → Except String String
  gen : Nat → Except String String
  clone : Nat → Except String String
  applyOut : Nat → String → String → Except String ApplyResultW
  cmdRun : Nat → List String → RunOutcome
  hollowEval : Nat → String → GateEval

/-- Evaluate one constructed gate instance.  A command gate never returns
a Go error in the embedded source (all its failure paths return a result
with `err = nil`). -/
def evalGateInstance (env : StageEnv) (attempt : Nat) (gi : GateInstance) : GateEval :=
  match gi with
  | .command g => { res := some (commandGateEvaluate env.cwd g (env.cmdRun attempt g.command)), err := none }
  | .hollow bp _ => env.hollowEval attempt bp

/-- The gate loop of `evaluateGates`: strictly in order, stopping at the
first error or first failing gate. -/
def evaluateGatesLoop (env : StageEnv) (attempt : Nat) :
    List GateInstance → List GateResultEntry → List GateResultEntry × Option String
  | [], acc => (acc, none)
  | gi :: rest, acc =>
    let e := evalGateInstance env attempt gi
    let entry : GateResultEntry :=
      { name := gateInstanceName gi, result := e.res, errMsg := e.err }
    let acc' := acc ++ [entry]
    match e.err with
    | some msg => (acc', some ("gate " ++ gateInstanceName gi ++ " error: " ++ msg))
    | none =>
      match e.res with
      | some r =>
        if !r.passed then (acc', some ("gate " ++ gateInstanceName gi ++ " failed"))
        else evaluateGatesLoop env attempt rest acc'
      | none => evaluateGatesLoop env attempt rest acc'

/-- Port of `evaluateGates`. -/
def evaluateGates (env : StageEnv) (attempt : Nat) (stage : Stage) (pipe : PipelineM)
    (workspacePath : String) (applyApproved : Bool) :
    List GateResultEntry × Option String :=
  if stage.gates.isEmpty then ([], none)
  else
    match buildGateInstances pipe stage.gates workspacePath applyApproved with
    | .error e => ([], some e)
    | .ok instances => evaluateGatesLoop env attempt instances []

/-- Trace events: the observable side effects of a stage run. -/
inductive Event where
  | generateCall (attempt : Nat)
  | blobWrite (kind : String)
  | cloneTemp (attempt : Nat)
  | applyOutputCall (attempt : Nat)
deriving DecidableEq, Repr

/-- Port of `applyIfNeeded`: returns
`(apply result, workspace used, workspace mode, apply error, events)`.
The approval check comes before any clone or apply. -/
def applyIfNeeded (env : StageEnv) (attempt : Nat) (stage : Stage)
    (workspacePath : String) (art : ArtifactM) (applyForReal applyApproved : Bool) :
    Option ApplyResultW × String × String × Option String × List Event :=
  if !stage.apply then (none, workspacePath, "real", none, [])
  else if applyForReal && !applyApproved then
    (none, workspacePath, "real", some "apply for real requires explicit approval", [])
  else if !applyForReal then
    match env.clone attempt with
    | .error e => (none, workspacePath, "temp", some e, [])
    | .ok tempDir =>
      match env.applyOut attempt tempDir art.content with
      | .error e => (none, tempDir, "temp", some e, [.cloneTemp attempt, .applyOutputCall attempt])
      | .ok result =>
        (some result, tempDir, "temp", none, [.cloneTemp attempt, .applyOutputCall attempt])
  else
    match env.applyOut attempt workspacePath art.content with
    | .error e => (none, workspacePath, "real", some e, [.applyOutputCall attempt])
    | .ok result => (some result, workspacePath, "real", none, [.applyOutputCall attempt])

/-- Port of `consolidateGateFailures`. -/
def consolidateGateFailures (results : List GateResultEntry) (applyErr : Option String) :
    GateResultG :=
  match applyErr with
  | some e => newFailingResult 100 [mkViolation "apply_failed" e] []
  | none =>
    let failing := results.filter fun r =>
      match r.result with
      | some res => !res.passed
      | none => false
    let violations := failing.flatMap fun r => (r.result.map (·.violations)).getD []
    let hints := failing.flatMap fun r => (r.result.map (·.repairHints)).getD []
    let violations' :=
      if violations.isEmpty then
        [mkViolation "gate_failed" "gate failed without specific violations"]
      else violations
    newFailingResult 100 violations' hints

/-- Port of `fingerprintViolations`: sha256 over the sorted
`rule|message|location` lines, plus `apply:<error>` when apply failed. -/
def fingerprintViolations (violations : List Violation) (applyErr : Option String) : String :=
  if violations.isEmpty && applyErr.isNone then ""
  else
    let normalized := violations.map fun v => v.rule ++ "|" ++ v.message ++ "|" ++ v.location
    let sorted := sortStrings normalized
    let final :=
      match applyErr with
      | some e => sorted ++ ["apply:" ++ e]
      | none => sorted
    sha256hex (strBytes (String.intercalate "\n" final))

/-- Port of `repair.GenerateRepairPrompt` (`pkg/repair`): the previous
output between `---` markers, the violations with their suggestions, the
repair hints when any, and the fix instruction. -/
def generateRepairPrompt (art : ArtifactM) (failure : GateResultG) : String :=
  "The following output failed quality checks:\n\n" ++
  "---\n" ++ art.content ++ "\n---\n\n" ++
  "Issues found:\n" ++
  String.join (failure.violations.map fun v =>
    "- [" ++ v.severity ++ "] " ++ v.rule ++ ": " ++ v.message ++ "\n" ++
    (if v.suggestion ≠ "" then "  Suggestion: " ++ v.suggestion ++ "\n" else "")) ++
  (if failure.repairHints.length > 0 then
    "\nRepair hints:\n" ++
      String.join (failure.repairHints.map fun hint => "- " ++ hint ++ "\n")
  else "") ++
  "\nPlease fix all issues and provide the corrected output."

/-- Port of `repair.GenerateEscalationPrompt` (`pkg/repair`): the
do-not-repeat warning, the rule/message lines, the unified-diff demand
when `requireDiff` is set, and the previous output. -/
def generateEscalationPrompt (art : ArtifactM) (failure : GateResultG) (requireDiff : Bool) :
    String :=
  "The previous outputs are repeating and failed quality checks.\n" ++
  "Do NOT repeat the previous output; change the implementation.\n\n" ++
  "Issues found:\n" ++
  String.join (failure.violations.map fun v => "- " ++ v.rule ++ ": " ++ v.message ++ "\n") ++
  (if requireDiff then "\nReturn a unified diff only.\n" else "") ++
  "\nPrevious output:\n---\n" ++ art.content ++ "\n---\n" ++
  "\nProvide a corrected implementation that addresses the issues above.\n"

/-- `pipeline.AttemptState`. -/
structure AttemptState where
  promptHash : String
  outputHash : String
  violationFingerprint : String
deriving DecidableEq, Repr

/-- `pipeline.RepairState`. -/
structure RepairState where
  attempts : List AttemptState
  escalated : Bool
deriving DecidableEq, Repr

/-- `evidence.AttemptRecord` as filled by the runner (durations out of
the model; gate records kept as the runner's entries). -/
structure AttemptRecordM where
  attempt : Nat
  promptHash : String
  promptRef : String
  outputRef : String
  outputHash : String
  outputLen : Nat
  workspaceUsed : String
  workspaceMode : String
  gateResults : List GateResultEntry
  applyError : String
  succeeded : Bool
deriving DecidableEq, Repr

/-- `evidence.StageRecord` as filled by the runner. -/
structure StageRecordM where
  name : String
  adapter : String
  model : String
  prompt : String
  promptRef : String
  promptHash : String
  promptLen : Nat
  output : String
  outputRef : String
  outputHash : String
  outputLen : Nat
  gateResults : List GateResultEntry
  attempts : List AttemptRecordM
  applyResult : Option ApplyResultW
deriving DecidableEq, Repr

def emptyStageRecord : StageRecordM :=
  { name := "", adapter := "", model := "", prompt := "", promptRef := ""
    promptHash := "", promptLen := 0, output := "", outputRef := ""
    outputHash := "", outputLen := 0, gateResults := [], attempts := []
    applyResult := none }

/-- `pipeline.StageResult`. -/
structure StageResultM where
  name : String
  artifact : ArtifactM
  gateResults : List GateResultEntry
  applyResult : Option ApplyResultW
deriving DecidableEq, Repr

/-- Everything `runStage` returns: `(*StageResult, *StageRecord, error)`
plus the evidence-writer state and the event trace. -/
structure RunStageOut where
  result : Option StageResultM
  record : StageRecordM
  errMsg : Option String
  blobs : FS
  trace : List Event
deriving DecidableEq, Repr

/-- Port of `truncateForEvidence`. -/
def truncateForEvidence (value : String) (limit : Nat) : String :=
  if limit = 0 || value.data.length ≤ limit then value
  else String.mk (value.data.take limit)

/-- Port of `pickSingleAdapter`. -/
def pickSingleAdapter (adapters : List (String × AdapterInfo)) : String :=
  match adapters with
  | [a] => a.1
  | _ => ""

/-- State carried through the attempt loop of `runStage`. -/
structure LoopSt where
  blobs : FS
  prompt : String
  model : String
  rep : RepairState
  record : StageRecordM
  lastArt : Option ArtifactM
  lastGate : List GateResultEntry
  lastApply : Option ApplyResultW
  trace : List Event
deriving DecidableEq, Repr

/-- The `lastErr == nil` exit of the attempt loop: write the output blob
and finish the stage record (`runStage` after the loop). -/
def finalizeStage (stage : Stage) (st : LoopSt) : RunStageOut :=
  match st.lastArt with
  | none =>
    { result := none, record := st.record, errMsg := some "no artifact"
      blobs := st.blobs, trace := st.trace }
  | some art =>
    let wb := writeBlob st.blobs "output" (strBytes art.content)
    let record :=
      { st.record with
        output := truncateForEvidence art.content 4096
        outputRef := wb.1, outputHash := wb.2.1
        outputLen := art.content.data.length
        gateResults := st.lastGate, applyResult := st.lastApply }
    { result := some
        { name := stage.name, artifact := art
          gateResults := st.lastGate, applyResult := st.lastApply }
      record := record, errMsg := none, blobs := wb.2.2
      trace := st.trace ++ [.blobWrite "output"] }

/-- The decision taken after a failed attempt (`runStage` lines past the
`succeeded` check): loop detection, then final-attempt abort, then
repair-prompt continuation.  Returns either the state to continue the
loop with, or the terminal output. -/
inductive StepNext where
  | continueWith (st : LoopSt)
  | finished (out : RunStageOut)
deriving Repr

/-- The output hash recorded for a failed attempt (`runStage`): the
artifact hash, or the sha256 of the content when the hash is empty. -/
def attemptOutputHash (art : ArtifactM) : String :=
  if art.hash = "" then hashString art.content else art.hash

/-- Post-failure logic of one attempt, mirroring `runStage`: append the
attempt fingerprint, detect a repeat of the previous attempt's
`(fingerprint, outputHash)`, escalate once, abort on a repeat after
escalation, abort with the apply/gate error on the final attempt, and
otherwise continue with the standard repair prompt. -/
def afterFailure (stage : Stage) (isFinalAttempt : Bool) (st : LoopSt) (art : ArtifactM)
    (gateResults : List GateResultEntry) (applyErr gateErr : Option String)
    (attemptPromptSha attemptPromptRef attemptOutputRef : String) : StepNext :=
  let failureResult := consolidateGateFailures gateResults applyErr
  let outputHash := attemptOutputHash art
  let fingerprint := fingerprintViolations failureResult.violations applyErr
  let prevOpt := st.rep.attempts.getLast?
  let newEntry : AttemptState :=
    { promptHash := attemptPromptSha, outputHash := outputHash
      violationFingerprint := fingerprint }
  let st1 :=
    { st with rep := { st.rep with attempts := st.rep.attempts ++ [newEntry] } }
  let isLoop :=
    match prevOpt with
    | some prev => fingerprint = prev.violationFingerprint && outputHash = prev.outputHash
    | none => false
  if isLoop then
    if !st1.rep.escalated then
      .continueWith
        { st1 with
          rep := { st1.rep with escalated := true }
          model := if stage.fallbackModel ≠ "" then stage.fallbackModel else st1.model
          prompt := generateEscalationPrompt art failureResult stage.apply }
    else
      .finished
        { result := none, record := st1.record
          errMsg := some ("repair loop detected for stage " ++ stage.name ++
            ": fingerprint=" ++ fingerprint ++ " outputHash=" ++ outputHash ++
            " promptRef=" ++ attemptPromptRef ++ " outputRef=" ++ attemptOutputRef)
          blobs := st1.blobs, trace := st1.trace }
  else if isFinalAttempt then
    let e :=
      match applyErr with
      | some ae => ae
      | none =>
        match gateErr with
        | some ge => ge
        | none => "stage " ++ stage.name ++ " failed"
    .finished
      { result := none, record := st1.record, errMsg := some e
        blobs := st1.blobs, trace := st1.trace }
  else
    .continueWith { st1 with prompt := generateRepairPrompt art failureResult }

/-- One attempt of the loop body of `runStage`. -/
def runAttempt (env : StageEnv) (stage : Stage) (pipe : PipelineM) (adapterName : String)
    (workspacePath : String) (applyForReal applyApproved : Bool) (attempt : Nat)
    (isFinalAttempt : Bool) (st : LoopSt) : StepNext :=
  match env.gen attempt with
  | .error e =>
    .finished
      { result := none, record := st.record
        errMsg := some ("stage " ++ stage.name ++ " adapter error: " ++ e)
        blobs := st.blobs, trace := st.trace ++ [.generateCall attempt] }
  | .ok content =>
    let art := artifactNew content adapterName st.model st.prompt
    let b1 := writeBlob st.blobs "attempt-prompt" (strBytes st.prompt)
    let b2 := writeBlob b1.2.2 "attempt-output" (strBytes art.content)
    let ap := applyIfNeeded env attempt stage workspacePath art applyForReal applyApproved
    let applyResult := ap.1
    let applyPath := ap.2.1
    let applyMode := ap.2.2.1
    let applyErr := ap.2.2.2.1
    let applyEvents := ap.2.2.2.2
    let ge := evaluateGates env attempt stage pipe applyPath applyApproved
    let gateResults := ge.1
    let gateErr := ge.2
    let succeeded := applyErr.isNone && gateErr.isNone
    let attemptRec : AttemptRecordM :=
      { attempt := attempt, promptHash := b1.2.1, promptRef := b1.1
        outputRef := b2.1, outputHash := b2.2.1
        outputLen := art.content.data.length
        workspaceUsed := applyPath, workspaceMode := applyMode
        gateResults := gateResults, applyError := applyErr.getD ""
        succeeded := succeeded }
    let st1 :=
      { st with
        blobs := b2.2.2
        record := { st.record with attempts := st.record.attempts ++ [attemptRec] }
        trace := st.trace ++
          [.generateCall attempt, .blobWrite "attempt-prompt", .blobWrite "attempt-output"] ++
          applyEvents
        lastArt := some art, lastGate := gateResults, lastApply := applyResult }
    if succeeded then .finished (finalizeStage stage st1)
    else
      afterFailure stage isFinalAttempt st1 art gateResults applyErr gateErr
        b1.2.1 b1.1 b2.1

/-- The attempt loop of `runStage`, recursing on remaining attempts.
Exhausting the loop without a terminal result is the Go loop falling
through with `lastErr == nil`. -/
def runAttemptsLoop (env : StageEnv) (stage : Stage) (pipe : PipelineM)
    (adapterName workspacePath : String) (applyForReal applyApproved : Bool) :
    Nat → Nat → LoopSt → RunStageOut
  | 0, _, st => finalizeStage stage st
  | rem + 1, attempt, st =>
    match runAttempt env stage pipe adapterName workspacePath applyForReal applyApproved
        attempt (rem = 0) st with
    | .finished out => out
    | .continueWith st' =>
      runAttemptsLoop env stage pipe adapterName workspacePath applyForReal applyApproved
        rem (attempt + 1) st'

/-- Port of `runStage`. -/
def runStage (env : StageEnv) (writerFS : FS) (stage : Stage)
    (adapters : List (String × AdapterInfo)) (pipe : PipelineM)
    (workspacePath : String) (applyForReal applyApproved : Bool) : RunStageOut :=
  let adapterName :=
    if stage.adapter ≠ "" then stage.adapter
    else if pipe.defaultAdapter ≠ "" then pipe.defaultAdapter
    else pickSingleAdapter adapters
  match adapters.lookup adapterName with
  | none =>
    { result := none, record := emptyStageRecord
      errMsg := some ("adapter " ++ adapterName ++ " not found")
      blobs := writerFS, trace := [] }
  | some adapterImpl =>
    let model0 :=
      if stage.model ≠ "" then stage.model
      else if pipe.defaultModel ≠ "" then pipe.defaultModel
      else adapterImpl.models.headD ""
    if model0 = "" then
      { result := none, record := emptyStageRecord
        errMsg := some ("model not specified for stage " ++ stage.name)
        blobs := writerFS, trace := [] }
    else
      match env.render stage.prompt with
      | .error e =>
        { result := none, record := emptyStageRecord
          errMsg := some ("render prompt for stage " ++ stage.name ++ ": " ++ e)
          blobs := writerFS, trace := [] }
      | .ok prompt0 =>
        let wb := writeBlob writerFS "prompt" (strBytes prompt0)
        let record0 :=
          { emptyStageRecord with
            adapter := adapterName, model := model0
            prompt := truncateForEvidence prompt0 4096
            promptRef := wb.1, promptHash := wb.2.1
            promptLen := prompt0.data.length }
        let attemptsTotal : Nat :=
          let a := stage.maxRetries + 1
          if a < 1 then 1 else a.toNat
        let st0 : LoopSt :=
          { blobs := wb.2.2, prompt := prompt0, model := model0
            rep := { attempts := [], escalated := false }
            record := record0, lastArt := none, lastGate := [], lastApply := none
            trace := [.blobWrite "prompt"] }
        runAttemptsLoop env stage pipe adapterName workspacePath applyForReal applyApproved
          attemptsTotal 1 st0

/-! ## Auxiliary definitions for the verification

Event predicates over the runner trace, a file-tampering operation for
the attestation theorems, and concrete instances used by witnesses and
counterexamples. -/

def isGenerateEvent : Event → Bool
  | .generateCall _ => true
  | _ => false

def isBlobEvent : Event → Bool
  | .blobWrite _ => true
  | _ => false

def isFsChangeEvent : Event → Bool
  | .cloneTemp _ => true
  | .applyOutputCall _ => true
  | _ => false

/-- Replace the content stored at path `p` (a one-file tamper). -/
def tamperFS (fs : FS) (p : String) (b : List Nat) : FS :=
  fs.map fun e => if e.1 = p then (p, b) else e

/-- A backend that always produces the same content, with a gate that
always fails: the repair-loop scenario. -/
def envSame : StageEnv :=
  { cwd := "/"
    render := fun p => .ok p
    gen := fun _ => .ok "same"
    clone := fun _ => .ok "/tmp/clone"
    applyOut := fun _ _ _ => .ok ⟨[], [], true⟩
    cmdRun := fun _ _ => .exited 1 "" ""
    hollowEval := fun _ _ => ⟨none, none⟩ }

def gdefFailing : GateDefinition :=
  { type := "command", command := ["false"], allowedCommands := [], denyShell := some true
    capability := "", templates := [], workdir := "", binaryPath := "", contractPath := "" }

def stageTwoAttempts : Stage :=
  { name := "s", adapter := "a", model := "m", prompt := "p", gates := ["g"]
    maxRetries := 1, apply := false, fallbackModel := "" }

def pipeFailing : PipelineM :=
  { name := "pl", defaultAdapter := "", defaultModel := ""
    gates := [("g", gdefFailing)], stages := [stageTwoAttempts] }

/-- A backend with per-attempt distinct output, for a stage that applies
for real without approval. -/
def envVarying : StageEnv :=
  { cwd := "/"
    render := fun p => .ok p
    gen := fun n => .ok (if n = 1 then "one" else "two")
    clone := fun _ => .ok "/tmp/clone"
    applyOut := fun _ _ _ => .ok ⟨["x"], [], true⟩
    cmdRun := fun _ _ => .exited 0 "" ""
    hollowEval := fun _ _ => ⟨none, none⟩ }

def stageApplyRetry : Stage :=
  { name := "s", adapter := "a", model := "m", prompt := "p", gates := []
    maxRetries := 1, apply := true, fallbackModel := "" }

def stageApplyNoRetry : Stage := { stageApplyRetry with maxRetries := 0 }

def pipeNoGates : PipelineM :=
  { name := "pl", defaultAdapter := "", defaultModel := "", gates := [], stages := [stageApplyRetry] }

def artPlain : ArtifactM :=
  { content := "x", adapter := "a", model := "m", prompt := "p", hash := "h" }

/-- A stage whose single gate names an unknown capability. -/
def envPlain : StageEnv :=
  { cwd := "/"
    render := fun p => .ok p
    gen := fun _ => .ok "out"
    clone := fun _ => .ok "/tmp/clone"
    applyOut := fun _ _ _ => .ok ⟨[], [], true⟩
    cmdRun := fun _ _ => .exited 0 "" ""
    hollowEval := fun _ _ => ⟨none, none⟩ }

def gdefUnknownCap : GateDefinition :=
  { type := "command", command := ["go", "test"], allowedCommands := [], denyShell := some true
    capability := "nope", templates := [], workdir := "", binaryPath := "", contractPath := "" }

def stageUnknownCap : Stage :=
  { name := "s", adapter := "a", model := "m", prompt := "p", gates := ["g"]
    maxRetries := 0, apply := false, fallbackModel := "" }

def pipeUnknownCap : PipelineM :=
  { name := "pl", defaultAdapter := "", defaultModel := ""
    gates := [("g", gdefUnknownCap)], stages := [stageUnknownCap] }

/-- A shell command under deny-shell policy: blocked. -/
def gateBlocked : CommandGate :=
  { name := "g", command := ["sh", "-c", "echo x"], workdir := "", allowed := []
    denyShell := true, workspaceRoot := "/ws", templates := [], policyMode := "none"
    capability := "", shellApproved := false }

/-- A non-shell command with no policy restrictions: not blocked. -/
def gateOpen : CommandGate :=
  { name := "g", command := ["true"], workdir := "", allowed := []
    denyShell := true, workspaceRoot := "/ws", templates := [], policyMode := "none"
    capability := "", shellApproved := false }

/-- Loop-state instances for the loop-detection theorems: the previous
attempt recorded exactly the fingerprint and output hash the next failed
attempt will produce. -/
def artRepeat : ArtifactM :=
  { content := "c", adapter := "a", model := "m", prompt := "p", hash := "h1" }

def artFresh : ArtifactM :=
  { content := "c2", adapter := "a", model := "m", prompt := "p", hash := "h2" }

def stRepeat : LoopSt :=
  { blobs := [], prompt := "p", model := "m"
    rep :=
      { attempts := [{ promptHash := "ph", outputHash := attemptOutputHash artRepeat
                       violationFingerprint :=
                         fingerprintViolations
                           (consolidateGateFailures [] (some "boom")).violations (some "boom") }]
        escalated := false }
    record := emptyStageRecord, lastArt := none, lastGate := [], lastApply := none
    trace := [] }

def stRepeatEsc : LoopSt := { stRepeat with rep := { stRepeat.rep with escalated := true } }

def stageFallback : Stage :=
  { name := "s", adapter := "a", model := "m", prompt := "p", gates := []
    maxRetries := 2, apply := false, fallbackModel := "fb" }

/-- The previous attempt's state recorded in `stRepeat`. -/
def prevW : AttemptState :=
  { promptHash := "ph", outputHash := attemptOutputHash artRepeat
    violationFingerprint :=
      fingerprintViolations
        (consolidateGateFailures [] (some "boom")).violations (some "boom") }

/-- An apply stage (temp-clone mode) whose gate names an unknown capability. -/
def stageUnknownCapApply : Stage := { stageUnknownCap with apply := true }

/-- Concrete attestation-builder instances: constant parsers standing for
`encoding/json`, the identity digest, and a two-file run directory. -/
def parseStageW : List Nat → Option StageRecA := fun _ =>
  some { gateResults := [{ name := "g", passed := true, score := 0, kind := "command" }]
         promptRef := "", outputRef := "", attempts := [] }

def parseRunW : List Nat → Option RunRecA := fun _ =>
  some { id := "r1", pipelineFile := "p.yaml", workspace := "/ws" }

def fsW : FS := [("run.json", [1]), ("stages/s.json", [2])]

def emptyAttW : AttestationV0 (List Nat) :=
  { schema := "", subject := ⟨"", "", "", ""⟩, claim := ⟨false, 0, false, []⟩
    evidence := ⟨"", "", [], []⟩, hashes := [] }

def attW : AttestationV0 (List Nat) :=
  match buildAttestation (fun b => b) parseRunW parseStageW fsW "rd" "s" with
  | .ok a => a
  | .error _ => emptyAttW

/-! ## Lemmas on the lexical path functions -/

-- Known-answer check of the SHA-256 port: sha256("abc").
example : sha256hex [97, 98, 99] =
    "ba7816bf8f01cfea414140de5dae2223b00361a396177a9cb410ff61f20015ad" := by decide

-- Sanity checks of the path port against Go behaviour.
example : cleanPath "a/../b" = "b" := by decide
example : cleanPath "../../a" = "../../a" := by decide
example : cleanPath "/.." = "/" := by decide
example : cleanPath "a/b/.." = "a" := by decide
example : joinPath "/ws" "b" = "/ws/b" := by decide
example : relPath "/ws" "/ws/b" = .ok "b" := by decide
example : relPath "a" "." = .ok ".." := by decide
example : relPath "a/b" "a/c" = .ok "../c" := by decide

theorem splitCharList_no_sep (c : Char) :
    ∀ (cs cur : List Char), c ∉ cs → splitCharList c cur cs = [cur.reverse ++ cs] := by
  intro cs
  induction cs with
  | nil => intro cur _; simp [splitCharList]
  | cons x xs ih =>
    intro cur h
    have hx : ¬x = c := fun hh => h (hh ▸ List.mem_cons_self _ _)
    rw [splitCharList, if_neg hx, ih _ fun hc => h (List.mem_cons_of_mem _ hc)]
    simp

theorem splitCharList_append_sep (c : Char) :
    ∀ (xs cur ys : List Char),
      splitCharList c cur (xs ++ c :: ys) =
        splitCharList c cur xs ++ splitCharList c [] ys := by
  intro xs
  induction xs with
  | nil => intro cur ys; simp [splitCharList]
  | cons x xs ih =>
    intro cur ys
    by_cases hx : x = c
    · subst hx
      simp only [List.cons_append, splitCharList, eq_self_iff_true, if_true]
      exact congrArg (cur.reverse :: ·) (ih [] ys)
    · simp only [List.cons_append, splitCharList, if_neg hx]
      exact ih _ _

theorem mem_splitCharList_no_sep (c : Char) :
    ∀ (cs cur : List Char), c ∉ cur → ∀ l ∈ splitCharList c cur cs, c ∉ l := by
  intro cs
  induction cs with
  | nil =>
    intro cur hcur l hl
    simp only [splitCharList, List.mem_singleton] at hl
    subst hl
    simpa using hcur
  | cons x xs ih =>
    intro cur hcur l hl
    by_cases hx : x = c
    · subst hx
      rw [splitCharList, if_pos rfl] at hl
      rcases List.mem_cons.1 hl with h | h
      · subst h; simpa using hcur
      · exact ih [] (List.not_mem_nil _) l h
    · rw [splitCharList, if_neg hx] at hl
      refine ih (x :: cur) ?_ l hl
      intro hc
      rcases List.mem_cons.1 hc with h | h
      · exact hx h.symm
      · exact hcur h

theorem splitPath_append (a b : String) :
    splitPath (a ++ "/" ++ b) = splitPath a ++ splitPath b := by
  unfold splitPath
  have h : (a ++ "/" ++ b).data = a.data ++ '/' :: b.data := by
    rw [String.data_append, String.data_append]
    simp
  rw [h, splitCharList_append_sep, List.map_append]

theorem splitPath_single (s : String) (h : ('/' : Char) ∉ s.data) : splitPath s = [s] := by
  unfold splitPath
  rw [splitCharList_no_sep _ _ _ h]
  simp

theorem splitPath_joinSegs :
    ∀ segs : List String, segs ≠ [] → (∀ s ∈ segs, ('/' : Char) ∉ s.data) →
      splitPath (joinSegs segs) = segs := by
  intro segs
  induction segs with
  | nil => intro h; exact absurd rfl h
  | cons s rest ih =>
    intro _ hfree
    cases rest with
    | nil =>
      show splitPath (joinSegs [s]) = [s]
      rw [joinSegs]
      exact splitPath_single s (hfree s (List.mem_cons_self _ _))
    | cons t rest' =>
      show splitPath (s ++ "/" ++ joinSegs (t :: rest')) = s :: t :: rest'
      rw [splitPath_append,
        splitPath_single s (hfree s (List.mem_cons_self _ _)),
        ih (by simp) fun u hu => hfree u (List.mem_cons_of_mem _ hu)]
      rfl

theorem mem_splitPath_no_slash (x : String) :
    ∀ s ∈ splitPath x, ('/' : Char) ∉ s.data := by
  intro s hs
  unfold splitPath at hs
  rcases List.mem_map.1 hs with ⟨l, hl, rfl⟩
  exact mem_splitCharList_no_sep '/' x.data [] (List.not_mem_nil _) l hl

theorem splitPath_rooted (y : String) : splitPath ("/" ++ y) = "" :: splitPath y := by
  unfold splitPath
  have h : ("/" ++ y).data = '/' :: y.data := by
    rw [String.data_append]; rfl
  rw [h, splitCharList, if_pos rfl]
  rfl

/-- A plain segment: neither empty nor a dot segment. -/
def PlainSeg (s : String) : Prop := s ≠ "" ∧ s ≠ "." ∧ s ≠ ".."

theorem cleanSegsAux_plain :
    ∀ (cs : List String) (rooted : Bool) (acc : List String),
      (∀ s ∈ cs, PlainSeg s) → cleanSegsAux rooted acc cs = cs.reverse ++ acc := by
  intro cs
  induction cs with
  | nil => intro rooted acc _; simp [cleanSegsAux]
  | cons s rest ih =>
    intro rooted acc h
    obtain ⟨h1, h2, h3⟩ := h s (List.mem_cons_self _ _)
    simp only [cleanSegsAux]
    rw [if_neg (by tauto), if_neg h3,
      ih rooted (s :: acc) fun u hu => h u (List.mem_cons_of_mem _ hu)]
    simp

theorem cleanSegsAux_append_plain :
    ∀ (xs : List String) (rooted : Bool) (acc cs : List String),
      (∀ s ∈ cs, PlainSeg s) →
      cleanSegsAux rooted acc (xs ++ cs) = cs.reverse ++ cleanSegsAux rooted acc xs := by
  intro xs
  induction xs with
  | nil =>
    intro rooted acc cs h
    rw [List.nil_append, cleanSegsAux_plain cs rooted acc h]
    simp [cleanSegsAux]
  | cons x xs ih =>
    intro rooted acc cs h
    rw [List.cons_append]
    simp only [cleanSegsAux]
    by_cases h1 : x = "" ∨ x = "."
    · rw [if_pos h1, if_pos h1, ih rooted acc cs h]
    · rw [if_neg h1, if_neg h1]
      by_cases h2 : x = ".."
      · rw [if_pos h2, if_pos h2, ih rooted (ddStep rooted acc) cs h]
      · rw [if_neg h2, if_neg h2, ih rooted (x :: acc) cs h]

theorem mem_ddStep (rooted : Bool) (acc : List String) :
    ∀ u ∈ ddStep rooted acc, u ∈ acc ∨ u = ".." := by
  intro u hu
  cases acc with
  | nil =>
    cases rooted <;> simp only [ddStep] at hu
    · simp only [Bool.false_eq_true, if_false, List.mem_singleton] at hu
      exact Or.inr hu
    · simp at hu
  | cons a tl =>
    simp only [ddStep] at hu
    by_cases h3 : a = ".."
    · rw [if_pos h3] at hu
      rcases List.mem_cons.1 hu with h | h
      · exact Or.inr h
      · exact Or.inl h
    · rw [if_neg h3] at hu
      exact Or.inl (List.mem_cons_of_mem _ hu)

theorem mem_cleanSegsAux :
    ∀ (segs : List String) (rooted : Bool) (acc : List String) (s : String),
      s ∈ cleanSegsAux rooted acc segs →
      s ∈ acc ∨ s = ".." ∨ (s ∈ segs ∧ PlainSeg s) := by
  intro segs
  induction segs with
  | nil =>
    intro rooted acc s hs
    simp only [cleanSegsAux] at hs
    exact Or.inl hs
  | cons x xs ih =>
    intro rooted acc s hs
    simp only [cleanSegsAux] at hs
    by_cases h1 : x = "" ∨ x = "."
    · rw [if_pos h1] at hs
      rcases ih rooted acc s hs with h | h | ⟨hm, hp⟩
      · exact Or.inl h
      · exact Or.inr (Or.inl h)
      · exact Or.inr (Or.inr ⟨List.mem_cons_of_mem _ hm, hp⟩)
    · rw [if_neg h1] at hs
      by_cases h2 : x = ".."
      · rw [if_pos h2] at hs
        rcases ih rooted (ddStep rooted acc) s hs with h | h | ⟨hm, hp⟩
        · rcases mem_ddStep rooted acc s h with h' | h'
          · exact Or.inl h'
          · exact Or.inr (Or.inl h')
        · exact Or.inr (Or.inl h)
        · exact Or.inr (Or.inr ⟨List.mem_cons_of_mem _ hm, hp⟩)
      · rw [if_neg h2] at hs
        rcases ih rooted (x :: acc) s hs with h | h | ⟨hm, hp⟩
        · rcases List.mem_cons.1 h with h' | h'
          · subst h'
            refine Or.inr (Or.inr ⟨List.mem_cons_self _ _, ?_, ?_, h2⟩) <;> tauto
          · exact Or.inl h'
        · exact Or.inr (Or.inl h)
        · exact Or.inr (Or.inr ⟨List.mem_cons_of_mem _ hm, hp⟩)

theorem ddStep_dd_inv (rooted : Bool) (P : List String) (m : Nat)
    (hP : ".." ∉ P) (hm : rooted = true → m = 0) :
    ∃ P' m', ddStep rooted (P ++ List.replicate m "..") = P' ++ List.replicate m' ".." ∧
      ".." ∉ P' ∧ (rooted = true → m' = 0) := by
  cases P with
  | nil =>
    cases m with
    | zero =>
      cases rooted
      · exact ⟨[], 1, by simp [ddStep], by simp, by simp⟩
      · exact ⟨[], 0, by simp [ddStep], by simp, fun _ => rfl⟩
    | succ m =>
      refine ⟨[], m + 2, ?_, by simp, fun h => absurd (hm h) (Nat.succ_ne_zero m)⟩
      simp [ddStep, List.replicate_succ]
  | cons p P' =>
    have hp : p ≠ ".." := fun h => hP (h ▸ List.mem_cons_self _ _)
    refine ⟨P', m, ?_, fun h => hP (List.mem_cons_of_mem _ h), hm⟩
    simp [ddStep, hp]

theorem cleanSegsAux_dd :
    ∀ (segs : List String) (rooted : Bool) (P : List String) (m : Nat),
      ".." ∉ P → (rooted = true → m = 0) →
      ∃ P' m', cleanSegsAux rooted (P ++ List.replicate m "..") segs =
        P' ++ List.replicate m' ".." ∧ ".." ∉ P' ∧ (rooted = true → m' = 0) := by
  intro segs
  induction segs with
  | nil =>
    intro rooted P m hP hm
    exact ⟨P, m, by simp [cleanSegsAux], hP, hm⟩
  | cons x xs ih =>
    intro rooted P m hP hm
    simp only [cleanSegsAux]
    by_cases h1 : x = "" ∨ x = "."
    · rw [if_pos h1]; exact ih rooted P m hP hm
    · rw [if_neg h1]
      by_cases h2 : x = ".."
      · rw [if_pos h2]
        obtain ⟨P', m', heq, hP', hm'⟩ := ddStep_dd_inv rooted P m hP hm
        rw [heq]
        exact ih rooted P' m' hP' hm'
      · rw [if_neg h2]
        have hx : x :: (P ++ List.replicate m "..") = (x :: P) ++ List.replicate m ".." := rfl
        rw [hx]
        refine ih rooted (x :: P) m ?_ hm
        intro hmem
        rcases List.mem_cons.1 hmem with h | h
        · exact h2 h.symm
        · exact hP h

theorem cleanSegs_dd (rooted : Bool) (segs : List String) :
    ∃ m P, cleanSegs rooted segs = List.replicate m ".." ++ P ∧ ".." ∉ P ∧
      (rooted = true → m = 0) := by
  obtain ⟨P', m', heq, hP', hm'⟩ :=
    cleanSegsAux_dd segs rooted [] 0 (List.not_mem_nil _) fun _ => rfl
  refine ⟨m', P'.reverse, ?_, by simpa using hP', hm'⟩
  unfold cleanSegs
  have h0 : ([] : List String) ++ List.replicate 0 ".." = [] := rfl
  rw [h0] at heq
  rw [heq, List.reverse_append, List.reverse_replicate]

theorem cleanSegs_no_dd_rooted (segs : List String) : ".." ∉ cleanSegs true segs := by
  obtain ⟨m, P, heq, hP, hm⟩ := cleanSegs_dd true segs
  rw [heq, hm rfl]
  simpa using hP

theorem cleanSegs_plain_id (rooted : Bool) (cs : List String)
    (h : ∀ s ∈ cs, PlainSeg s) : cleanSegs rooted cs = cs := by
  unfold cleanSegs
  rw [cleanSegsAux_plain cs rooted [] h]
  simp

theorem cleanSegs_cons_empty (rooted : Bool) (l : List String) :
    cleanSegs rooted ("" :: l) = cleanSegs rooted l := by
  unfold cleanSegs
  simp [cleanSegsAux]

theorem cleanSegs_append_plain (rooted : Bool) (xs cs : List String)
    (h : ∀ s ∈ cs, PlainSeg s) :
    cleanSegs rooted (xs ++ cs) = cleanSegs rooted xs ++ cs := by
  unfold cleanSegs
  rw [cleanSegsAux_append_plain xs rooted [] cs h, List.reverse_append]
  simp

theorem data_ne_nil_of_ne_empty (s : String) (h : s ≠ "") : s.data ≠ [] := by
  intro hd
  exact h (String.ext hd)

theorem ne_empty_of_isAbs (s : String) (h : isAbsPath s = true) : s ≠ "" := by
  intro he
  subst he
  simp [isAbsPath] at h

theorem isAbsPath_data (s : String) :
    isAbsPath s = true ↔ ∃ rest, s.data = '/' :: rest := by
  unfold isAbsPath
  cases hd : s.data with
  | nil => simp
  | cons c cs =>
    simp only [decide_eq_true_eq]
    constructor
    · intro h; exact ⟨cs, by rw [h]⟩
    · rintro ⟨rest, hr⟩
      simpa using congrArg (fun l => l.headD ' ') hr

theorem isAbsPath_append (root x : String) (h : isAbsPath root = true) :
    isAbsPath (root ++ x) = true := by
  obtain ⟨rest, hr⟩ := (isAbsPath_data root).1 h
  refine (isAbsPath_data _).2 ⟨rest ++ x.data, ?_⟩
  rw [String.data_append, hr]
  rfl

theorem isAbsPath_slash_append (y : String) : isAbsPath ("/" ++ y) = true := by
  refine (isAbsPath_data _).2 ⟨y.data, ?_⟩
  rw [String.data_append]
  rfl

theorem joinSegs_ne_empty (s : String) (rest : List String) (hs : s ≠ "") :
    joinSegs (s :: rest) ≠ "" := by
  cases rest with
  | nil => exact hs
  | cons t ts =>
    show s ++ "/" ++ joinSegs (t :: ts) ≠ ""
    intro he
    have hd := congrArg String.data he
    rw [String.data_append, String.data_append] at hd
    have := data_ne_nil_of_ne_empty s hs
    cases hds : s.data with
    | nil => exact this hds
    | cons c cs => rw [hds] at hd; simp at hd

theorem isAbsPath_joinSegs_false (segs : List String)
    (h : ∀ s ∈ segs, s ≠ "" ∧ ('/' : Char) ∉ s.data) :
    isAbsPath (joinSegs segs) = false := by
  cases segs with
  | nil => rfl
  | cons s rest =>
    obtain ⟨hne, hfree⟩ := h s (List.mem_cons_self _ _)
    cases hds : s.data with
    | nil => exact absurd hds (data_ne_nil_of_ne_empty s hne)
    | cons c cs =>
      have hcslash : c ≠ '/' := by
        intro hc
        exact hfree (hds ▸ (hc ▸ List.mem_cons_self c cs))
      cases rest with
      | nil =>
        show isAbsPath s = false
        unfold isAbsPath
        rw [hds]
        simpa using hcslash
      | cons t ts =>
        show isAbsPath (s ++ "/" ++ joinSegs (t :: ts)) = false
        unfold isAbsPath
        rw [String.data_append, String.data_append, hds]
        simpa using hcslash

theorem strStarts_dd_joinSegs (rest : List String) :
    strStarts (joinSegs (".." :: rest)) ".." = true := by
  cases rest with
  | nil => decide
  | cons t ts =>
    show strStarts (".." ++ "/" ++ joinSegs (t :: ts)) ".." = true
    unfold strStarts
    rw [String.data_append, String.data_append]
    simp [List.take]

theorem cleanPath_rooted_eq (q : String) (h : isAbsPath q = true) :
    cleanPath q = "/" ++ joinSegs (cleanSegs true (splitPath q)) := by
  have hq : q ≠ "" := ne_empty_of_isAbs q h
  unfold cleanPath
  rw [if_neg hq, h]
  simp

theorem cleanPath_unrooted_eq (q : String) (h0 : q ≠ "") (h : isAbsPath q = false) :
    cleanPath q =
      (if (cleanSegs false (splitPath q)).isEmpty then "."
       else joinSegs (cleanSegs false (splitPath q))) := by
  unfold cleanPath
  rw [if_neg h0, h]
  simp

theorem mem_cleanSegs (rooted : Bool) (segs : List String) (s : String)
    (hs : s ∈ cleanSegs rooted segs) : s = ".." ∨ (s ∈ segs ∧ PlainSeg s) := by
  unfold cleanSegs at hs
  rw [List.mem_reverse] at hs
  rcases mem_cleanSegsAux segs rooted [] s hs with h | h | h
  · exact absurd h (List.not_mem_nil _)
  · exact Or.inl h
  · exact Or.inr h

theorem safeJoin_empty (root : String) : safeJoin root "" = .error "empty path" := by
  simp [safeJoin]

theorem safeJoin_abs (root rel : String) (h : isAbsPath rel = true) :
    safeJoin root rel = .error ("absolute paths are not allowed: " ++ rel) := by
  unfold safeJoin
  rw [if_neg (ne_empty_of_isAbs rel h), if_pos h]

theorem safeJoin_dd (root rel : String) (h0 : rel ≠ "") (h1 : isAbsPath rel = false)
    (h : cleanPath rel = "." ∨ strStarts (cleanPath rel) ".." = true) :
    safeJoin root rel = .error ("invalid path: " ++ rel) := by
  unfold safeJoin
  rw [if_neg h0, if_neg (by simp [h1]), if_pos h]

theorem safeJoin_ok_elim (root rel p : String) (h : safeJoin root rel = .ok p) :
    rel ≠ "" ∧ isAbsPath rel = false ∧ cleanPath rel ≠ "." ∧
      strStarts (cleanPath rel) ".." = false ∧ p = joinPath root (cleanPath rel) := by
  by_cases h0 : rel = ""
  · rw [h0, safeJoin_empty root] at h; exact absurd h (by simp)
  by_cases h1 : isAbsPath rel = true
  · rw [safeJoin_abs root rel h1] at h; exact absurd h (by simp)
  have h1' : isAbsPath rel = false := by simpa using h1
  by_cases h2 : cleanPath rel = "." ∨ strStarts (cleanPath rel) ".." = true
  · rw [safeJoin_dd root rel h0 h1' h2] at h; exact absurd h (by simp)
  obtain ⟨h2a, h2b⟩ := not_or.1 h2
  have h2b' : strStarts (cleanPath rel) ".." = false := by simpa using h2b
  refine ⟨h0, h1', h2a, h2b', ?_⟩
  unfold safeJoin at h
  rw [if_neg h0, if_neg (by simp [h1']), if_neg h2] at h
  have h' : (match relPath root (joinPath root (cleanPath rel)) with
      | Except.error _ => Except.error ("path escapes workspace: " ++ rel)
      | Except.ok relCheck =>
        if strStarts relCheck ".." = true then
          Except.error ("path escapes workspace: " ++ rel)
        else Except.ok (joinPath root (cleanPath rel))) = Except.ok p := h
  cases hrel : relPath root (joinPath root (cleanPath rel)) with
  | error e => rw [hrel] at h'; simp at h'
  | ok rc =>
    rw [hrel] at h'
    by_cases hs : strStarts rc ".." = true
    · simp [hs] at h'
    · simp [hs] at h'
      exact h'.symm

theorem csegs_props (rel : String) (h0 : rel ≠ "") (h1 : isAbsPath rel = false)
    (h2 : cleanPath rel ≠ ".") (h3 : strStarts (cleanPath rel) ".." = false) :
    (∀ s ∈ cleanSegs false (splitPath rel), PlainSeg s ∧ ('/' : Char) ∉ s.data) ∧
      cleanSegs false (splitPath rel) ≠ [] ∧
      cleanPath rel = joinSegs (cleanSegs false (splitPath rel)) := by
  have hdec := cleanPath_unrooted_eq rel h0 h1
  have hne : ¬(cleanSegs false (splitPath rel)).isEmpty = true := by
    intro hie
    rw [hdec, if_pos hie] at h2
    exact h2 rfl
  have hnil : cleanSegs false (splitPath rel) ≠ [] := by
    intro hn; exact hne (by rw [hn]; rfl)
  have hjoin : cleanPath rel = joinSegs (cleanSegs false (splitPath rel)) := by
    rw [hdec, if_neg hne]
  obtain ⟨m, P, heq, hP, _⟩ := cleanSegs_dd false (splitPath rel)
  have hm : m = 0 := by
    cases m with
    | zero => rfl
    | succ k =>
      exfalso
      rw [List.replicate_succ] at heq
      have hstart : strStarts (cleanPath rel) ".." = true := by
        rw [hjoin, heq]
        exact strStarts_dd_joinSegs _
      rw [hstart] at h3
      exact absurd h3 (by simp)
  have hPeq : cleanSegs false (splitPath rel) = P := by
    rw [heq, hm]; rfl
  refine ⟨?_, hnil, hjoin⟩
  intro s hs
  rcases mem_cleanSegs false (splitPath rel) s hs with hdd | ⟨hm', hp'⟩
  · rw [hdd, hPeq] at hs
    exact absurd hs hP
  · exact ⟨hp', mem_splitPath_no_slash rel s hm'⟩

theorem safeJoin_descendant (root rel p : String) (hroot : isAbsPath root = true)
    (h : safeJoin root rel = .ok p) :
    isAbsPath p = true ∧
      ∃ rest, rest ≠ [] ∧ ".." ∉ rest ∧ pathSegs p = pathSegs root ++ rest := by
  obtain ⟨h0, h1, h2, h3, hp⟩ := safeJoin_ok_elim root rel p h
  obtain ⟨hplain, hnil, hjoin⟩ := csegs_props rel h0 h1 h2 h3
  have hrootne : root ≠ "" := ne_empty_of_isAbs root hroot
  have hclne : cleanPath rel ≠ "" := by
    rw [hjoin]
    cases hcs : cleanSegs false (splitPath rel) with
    | nil => exact absurd hcs hnil
    | cons s r =>
      exact joinSegs_ne_empty s r (hplain s (by rw [hcs]; exact List.mem_cons_self _ _)).1.1
  have hpj : p = cleanPath (root ++ "/" ++ cleanPath rel) := by
    rw [hp]; unfold joinPath
    rw [if_neg (by simp [hrootne]), if_neg hrootne, if_neg hclne]
  have hcat : isAbsPath (root ++ "/" ++ cleanPath rel) = true :=
    isAbsPath_append _ _ (isAbsPath_append _ _ hroot)
  have hsplit : splitPath (root ++ "/" ++ cleanPath rel) =
      splitPath root ++ cleanSegs false (splitPath rel) := by
    rw [splitPath_append, hjoin,
      splitPath_joinSegs _ hnil fun s hs => (hplain s hs).2]
  have hRplain : ∀ s ∈ cleanSegs true (splitPath root),
      PlainSeg s ∧ ('/' : Char) ∉ s.data := by
    intro s hs
    rcases mem_cleanSegs true (splitPath root) s hs with hdd | ⟨hm, hp'⟩
    · rw [hdd] at hs
      exact absurd hs (cleanSegs_no_dd_rooted _)
    · exact ⟨hp', mem_splitPath_no_slash root s hm⟩
  have hpeq : p = "/" ++ joinSegs
      (cleanSegs true (splitPath root) ++ cleanSegs false (splitPath rel)) := by
    rw [hpj, cleanPath_rooted_eq _ hcat, hsplit,
      cleanSegs_append_plain true (splitPath root) _ fun s hs => (hplain s hs).1]
  have hpabs : isAbsPath p = true := by
    rw [hpeq]; exact isAbsPath_slash_append _
  refine ⟨hpabs, cleanSegs false (splitPath rel), hnil, ?_, ?_⟩
  · intro hdd
    exact (hplain ".." hdd).1.2.2 rfl
  · have hfreeRC : ∀ s ∈ cleanSegs true (splitPath root) ++ cleanSegs false (splitPath rel),
        ('/' : Char) ∉ s.data := by
      intro s hs
      rcases List.mem_append.1 hs with h' | h'
      · exact (hRplain s h').2
      · exact (hplain s h').2
    have hRCne : cleanSegs true (splitPath root) ++ cleanSegs false (splitPath rel) ≠ [] := by
      intro hn
      exact hnil (List.append_eq_nil.1 hn).2
    have hsp : splitPath p =
        "" :: (cleanSegs true (splitPath root) ++ cleanSegs false (splitPath rel)) := by
      rw [hpeq, splitPath_rooted, splitPath_joinSegs _ hRCne hfreeRC]
    unfold pathSegs
    rw [hpabs, hsp, hroot, cleanSegs_cons_empty,
      cleanSegs_append_plain true _ _ fun s hs => (hplain s hs).1,
      cleanSegs_plain_id true _ fun s hs => (hRplain s hs).1]

/-! ## Claim C10: empty hunk body lines -/

/-- C10: in `applyHunks`, a hunk body line that is the empty string is
treated as the insertion of an empty line: it is appended to the output
without consuming or comparing any line of the original file, so a blank
context (or deletion) line whose leading marker character was stripped
shifts the applied result instead of matching the original blank line.
The first conjunct is the general step law; the second shows the shift:
with the original `"a\n\nb"`, the hunk `[" a", "", " b"]` (blank context
line with its marker stripped) fails on `"b"` because the original blank
line was never consumed, while the correctly marked `[" a", " ", " b"]`
applies cleanly. -/
theorem c10_empty_hunk_line :
    (∀ (oldLines acc : List String) (idx : Nat),
        hunkLineStep oldLines (acc, idx) "" = .ok (acc ++ [""], idx)) ∧
    applyHunks "a\n\nb" [⟨1, 3, 1, 3, [" a", "", " b"]⟩] = .error "context mismatch: b" ∧
    applyHunks "a\n\nb" [⟨1, 3, 1, 3, [" a", " ", " b"]⟩] = .ok "a\n\nb" := by
  refine ⟨fun oldLines acc idx => rfl, by decide, by decide⟩

/-! ## Claim C8: content-addressed blob store -/

theorem sanitizeKind_chars (kind : String) :
    ∀ c ∈ (sanitizeKind kind).data, allowedKindChar c = true := by
  unfold sanitizeKind
  by_cases h0 : kind = ""
  · rw [if_pos h0]; decide
  · rw [if_neg h0]
    by_cases h1 : ((kind.data.map Char.toLower).filter allowedKindChar).isEmpty = true
    · rw [if_pos h1]; decide
    · rw [if_neg h1]
      intro c hc
      exact List.of_mem_filter hc

theorem sanitizeKind_ne_empty (kind : String) : sanitizeKind kind ≠ "" := by
  unfold sanitizeKind
  by_cases h0 : kind = ""
  · rw [if_pos h0]; decide
  · rw [if_neg h0]
    by_cases h1 : ((kind.data.map Char.toLower).filter allowedKindChar).isEmpty = true
    · rw [if_pos h1]; decide
    · rw [if_neg h1]
      intro h
      apply h1
      rw [List.isEmpty_iff]
      exact congrArg String.data h

/-- C8: `WriteBlob` returns `blobs/<sanitized-kind>-<sha>.txt` with `<sha>`
the hex sha256 of the content; the sanitized kind consists only of
`[a-z0-9_-]` and is never empty (fallback `"blob"`); a first call on a
fresh store writes exactly one file, and a second call with the same
arguments returns the identical `(ref, sha)` pair and leaves the store
untouched (byte-identical file, one file in total). -/
theorem c8_write_blob (fs : FS) (kind : String) (content : List Nat)
    (hnew : (fs.lookup
      ("blobs/" ++ sanitizeKind kind ++ "-" ++ sha256hex content ++ ".txt")).isSome = false) :
    (writeBlob fs kind content).1 =
      "blobs/" ++ sanitizeKind kind ++ "-" ++ sha256hex content ++ ".txt" ∧
    (writeBlob fs kind content).2.1 = sha256hex content ∧
    (∀ c ∈ (sanitizeKind kind).data, allowedKindChar c = true) ∧
    sanitizeKind kind ≠ "" ∧
    (writeBlob fs kind content).2.2 = ((writeBlob fs kind content).1, content) :: fs ∧
    writeBlob (writeBlob fs kind content).2.2 kind content =
      ((writeBlob fs kind content).1, sha256hex content, (writeBlob fs kind content).2.2) := by
  have hbranch : writeBlob fs kind content =
      ("blobs/" ++ sanitizeKind kind ++ "-" ++ sha256hex content ++ ".txt", sha256hex content,
        ("blobs/" ++ sanitizeKind kind ++ "-" ++ sha256hex content ++ ".txt", content) :: fs) := by
    unfold writeBlob
    rw [if_neg (by simp [hnew])]
  refine ⟨by rw [hbranch], by rw [hbranch], sanitizeKind_chars kind, sanitizeKind_ne_empty kind,
    by rw [hbranch], ?_⟩
  rw [hbranch]
  unfold writeBlob
  rw [if_pos (by simp [List.lookup])]

/-- C8 witness: the theorem applied to an empty store, kind `"prompt"` and
the bytes `[104, 105]`. -/
theorem c8_write_blob_witness :
    ((([] : FS).lookup
      ("blobs/" ++ sanitizeKind "prompt" ++ "-" ++ sha256hex [104, 105] ++ ".txt")).isSome = false) ∧
    ((writeBlob [] "prompt" [104, 105]).1 =
      "blobs/" ++ sanitizeKind "prompt" ++ "-" ++ sha256hex [104, 105] ++ ".txt" ∧
    (writeBlob [] "prompt" [104, 105]).2.1 = sha256hex [104, 105] ∧
    (∀ c ∈ (sanitizeKind "prompt").data, allowedKindChar c = true) ∧
    sanitizeKind "prompt" ≠ "" ∧
    (writeBlob [] "prompt" [104, 105]).2.2 =
      ((writeBlob [] "prompt" [104, 105]).1, [104, 105]) :: ([] : FS) ∧
    writeBlob (writeBlob [] "prompt" [104, 105]).2.2 "prompt" [104, 105] =
      ((writeBlob [] "prompt" [104, 105]).1, sha256hex [104, 105],
        (writeBlob [] "prompt" [104, 105]).2.2)) :=
  ⟨rfl, c8_write_blob [] "prompt" [104, 105] rfl⟩

/-! ## Claim C4: blocked and non-blocked command gates -/

/-- C4 counterexample: the claim says a blocked command leaves `exit_code`
unset, but the blocked branch of `CommandGate.Evaluate` records
`ExitCode: 1` in the diagnostics: for the deny-shell blocked gate the
diagnostics carry exit code `1`, not the zero value. -/
theorem c4_counterexample :
    policyBlockReason "/" gateBlocked ≠ "" ∧
    (commandGateEvaluate "/" gateBlocked (.exited 0 "" "")).passed = false ∧
    ((commandGateEvaluate "/" gateBlocked (.exited 0 "" "")).diagnostics.map
      (fun d => d.exitCode)) = some 1 := by
  refine ⟨by decide, by decide, by decide⟩

/-- C4 (amended): a blocked command gate produces `passed = false`, exactly
one violation with rule `command_blocked`, the blocked reason recorded in
the diagnostics, and a result independent of the subprocess outcome (no
process is consulted) — but its diagnostics record exit code `1`, not an
unset value; a non-blocked command that starts passes exactly when its
exit code is `0`, with that exit code recorded. -/
theorem c4_amended (cwd : String) (g : CommandGate) :
    (policyBlockReason cwd g ≠ "" →
      ∀ run1 run2 : RunOutcome,
        commandGateEvaluate cwd g run1 = commandGateEvaluate cwd g run2 ∧
        (commandGateEvaluate cwd g run1).passed = false ∧
        (commandGateEvaluate cwd g run1).violations =
          [mkViolation "command_blocked" (policyBlockReason cwd g)] ∧
        ((commandGateEvaluate cwd g run1).diagnostics.map (fun d => d.blockedReason)) =
          some (policyBlockReason cwd g) ∧
        ((commandGateEvaluate cwd g run1).diagnostics.map (fun d => d.exitCode)) = some 1) ∧
    (policyBlockReason cwd g = "" →
      ∀ (code : Int) (out errOut : String),
        ((commandGateEvaluate cwd g (.exited code out errOut)).passed = true ↔ code = 0) ∧
        ((commandGateEvaluate cwd g (.exited code out errOut)).diagnostics.map
          (fun d => d.exitCode)) = some code) := by
  constructor
  · intro hb run1 run2
    simp only [commandGateEvaluate]
    rw [if_pos hb, if_pos hb]
    refine ⟨rfl, rfl, rfl, rfl, rfl⟩
  · intro hb code out errOut
    simp only [commandGateEvaluate]
    rw [if_neg fun hne => hne hb]
    by_cases hc : code = 0
    · subst hc
      refine ⟨by simp [resultFromDiagnostics], rfl⟩
    · have hbeq : (code == 0) = false := by
        simpa using hc
      simp only [hbeq]
      refine ⟨by simp [resultFromDiagnostics, hc], rfl⟩

/-- C4 witness: the amended theorem applied to the deny-shell blocked gate
(with two different subprocess outcomes) and to the open gate with exit
code 2. -/
theorem c4_amended_witness :
    (policyBlockReason "/" gateBlocked ≠ "" ∧
      (commandGateEvaluate "/" gateBlocked (.exited 0 "" "") =
          commandGateEvaluate "/" gateBlocked (.startFailure "no" "" "") ∧
        (commandGateEvaluate "/" gateBlocked (.exited 0 "" "")).passed = false ∧
        (commandGateEvaluate "/" gateBlocked (.exited 0 "" "")).violations =
          [mkViolation "command_blocked" (policyBlockReason "/" gateBlocked)] ∧
        ((commandGateEvaluate "/" gateBlocked (.exited 0 "" "")).diagnostics.map
          (fun d => d.blockedReason)) = some (policyBlockReason "/" gateBlocked) ∧
        ((commandGateEvaluate "/" gateBlocked (.exited 0 "" "")).diagnostics.map
          (fun d => d.exitCode)) = some 1)) ∧
    (policyBlockReason "/" gateOpen = "" ∧
      (((commandGateEvaluate "/" gateOpen (.exited 2 "" "e")).passed = true ↔ (2 : Int) = 0) ∧
        ((commandGateEvaluate "/" gateOpen (.exited 2 "" "e")).diagnostics.map
          (fun d => d.exitCode)) = some 2)) :=
  ⟨⟨by decide, (c4_amended "/" gateBlocked).1 (by decide) (.exited 0 "" "") (.startFailure "no" "" "")⟩,
   ⟨by decide, (c4_amended "/" gateOpen).2 (by decide) 2 "" "e"⟩⟩

/-! ## Claim C6: path sandboxing of the appliers -/

/-- C6 counterexample: the claim says every path containing a `..` segment
is rejected, but `a/../b` contains a `..` segment and is accepted by
`safeJoin` (its cleaned form is `b`), and the file-block applier writes
it. -/
theorem c6_counterexample :
    (splitPath "a/../b").contains ".." = true ∧
    safeJoin "/ws" "a/../b" = .ok "/ws/b" ∧
    applyFileBlocks [] "/ws" [("a/../b", "x")] =
      .ok ([("/ws/b", "x")],
        { appliedFiles := ["a/../b"], deletedFiles := [], usedUnifiedDiff := false }) := by
  refine ⟨by decide, by decide, by decide⟩

/-- C6 (amended): every empty path, absolute path, and path whose
lexically cleaned form is `"."` or begins with a `..` segment is rejected
by `safeJoin`; for an absolute apply root, every accepted target resolves
to a strict descendant of the root (the cleaned segments of the result
extend the root's by a non-empty `..`-free suffix); and in both appliers
a planning-phase rejection aborts before any write or delete executes
(a `..` segment that cancels within the path, such as `a/../b`, is
accepted). -/
theorem c6_amended :
    (∀ root rel, (rel = "" ∨ isAbsPath rel = true ∨ cleanPath rel = "." ∨
        strStarts (cleanPath rel) ".." = true) → ∃ e, safeJoin root rel = .error e) ∧
    (∀ root rel p, isAbsPath root = true → safeJoin root rel = .ok p →
      isAbsPath p = true ∧ ∃ rest, rest ≠ [] ∧ ".." ∉ rest ∧
        pathSegs p = pathSegs root ++ rest) ∧
    (∀ fs ws patches e, planPatchOps fs ws patches = .error e →
      applyPatches fs ws patches = .error e) ∧
    (∀ fs ws blocks e, planBlockOps ws blocks = .error e →
      applyFileBlocks fs ws blocks = .error e) := by
  refine ⟨?_, fun root rel p h1 h2 => safeJoin_descendant root rel p h1 h2, ?_, ?_⟩
  · intro root rel hcase
    by_cases h0 : rel = ""
    · exact ⟨_, by rw [h0]; exact safeJoin_empty root⟩
    by_cases h1 : isAbsPath rel = true
    · exact ⟨_, safeJoin_abs root rel h1⟩
    have h1' : isAbsPath rel = false := by simpa using h1
    rcases hcase with h | h | h | h
    · exact absurd h h0
    · exact absurd h h1
    · exact ⟨_, safeJoin_dd root rel h0 h1' (Or.inl h)⟩
    · exact ⟨_, safeJoin_dd root rel h0 h1' (Or.inr h)⟩
  · intro fs ws patches e hp
    cases patches with
    | nil => exact absurd hp (by simp [planPatchOps])
    | cons q qs =>
      unfold applyPatches
      rw [if_neg (by simp), hp]
  · intro fs ws blocks e hp
    cases blocks with
    | nil => exact absurd hp (by simp [planBlockOps])
    | cons q qs =>
      unfold applyFileBlocks
      rw [if_neg (by simp), hp]

/-- C6 witness: the amended theorem applied to a rejected traversal path,
an accepted confined path under the absolute root `/ws`, and concrete
planning-phase rejections of both appliers. -/
theorem c6_amended_witness :
    (∃ e, safeJoin "/ws" "../z" = .error e) ∧
    (isAbsPath "/ws/a/b" = true ∧ ∃ rest, rest ≠ [] ∧ ".." ∉ rest ∧
      pathSegs "/ws/a/b" = pathSegs "/ws" ++ rest) ∧
    applyPatches [] "/ws" [⟨"/abs", "/abs", []⟩] =
      .error "absolute paths are not allowed: /abs" ∧
    applyFileBlocks [] "/ws" [("", "y")] = .error "empty path" :=
  ⟨c6_amended.1 "/ws" "../z" (by decide),
   c6_amended.2.1 "/ws" "a/b" "/ws/a/b" (by decide) (by decide),
   c6_amended.2.2.1 [] "/ws" [⟨"/abs", "/abs", []⟩] _ (by decide),
   c6_amended.2.2.2 [] "/ws" [("", "y")] _ (by decide)⟩

theorem isWorkspaceConfined_true_elim (cwd wd ws v : String)
    (h : (isWorkspaceConfined cwd wd ws v).1 = true) :
    ws ≠ "" ∧ isAbsPath v = false ∧ cleanPath v ≠ "." ∧
      (splitPath (cleanPath v)).contains ".." = false := by
  simp only [isWorkspaceConfined] at h
  by_cases h0 : ws = ""
  · rw [if_pos h0] at h; simp at h
  rw [if_neg h0] at h
  by_cases h1 : isAbsPath v = true
  · rw [if_pos h1] at h; simp at h
  have h1' : isAbsPath v = false := by simpa using h1
  rw [if_neg h1] at h
  by_cases h2 : cleanPath v = "."
  · rw [if_pos h2] at h; simp at h
  rw [if_neg h2] at h
  by_cases h3 : (splitPath (cleanPath v)).contains ".." = true
  · rw [if_pos h3] at h; simp at h
  have h3' : (splitPath (cleanPath v)).contains ".." = false := by simpa using h3
  exact ⟨h0, h1', h2, h3'⟩

theorem matchArgsAux_false (cwd ws wd : String) :
    ∀ (pairs : List (String × String)) (st : Bool × String), st.1 = false →
      (matchArgsAux cwd ws wd pairs st).1 = false := by
  intro pairs
  induction pairs with
  | nil => intro st h; simpa [matchArgsAux] using h
  | cons av rest ih =>
    intro st h
    obtain ⟨arg, v⟩ := av
    obtain ⟨m, r⟩ := st
    simp only at h
    subst h
    simp only [matchArgsAux]
    apply ih
    split_ifs <;> rfl

theorem matchArgsAux_true_elim (cwd ws wd : String) :
    ∀ (pairs : List (String × String)) (m : Bool) (r : String),
      (matchArgsAux cwd ws wd pairs (m, r)).1 = true →
      m = true ∧ ∀ av ∈ pairs,
        (av.1 = "\x7bpath\x7d" → (isWorkspaceConfined cwd wd ws av.2).1 = true) ∧
        (av.1 = "\x7bpkg\x7d" → allowedPkgArgs.contains av.2 = true) ∧
        (av.1 ≠ "\x7bpath\x7d" → av.1 ≠ "\x7bpkg\x7d" → av.2 = av.1) := by
  intro pairs
  induction pairs with
  | nil =>
    intro m r h
    refine ⟨by simpa [matchArgsAux] using h, by simp⟩
  | cons av rest ih =>
    intro m r h
    obtain ⟨arg, v⟩ := av
    simp only [matchArgsAux] at h
    by_cases hp : arg = "\x7bpath\x7d"
    · rw [if_pos hp] at h
      by_cases hc : (isWorkspaceConfined cwd wd ws v).1 = true
      · rw [if_pos hc] at h
        obtain ⟨hm, hrest⟩ := ih m r h
        refine ⟨hm, ?_⟩
        intro av' hav'
        rcases List.mem_cons.1 hav' with heq | hmem
        · subst heq
          exact ⟨fun _ => hc, fun hpk => absurd (hp.symm.trans hpk) (by decide),
            fun hnp _ => absurd hp hnp⟩
        · exact hrest av' hmem
      · rw [if_neg hc] at h
        rw [matchArgsAux_false cwd ws wd rest _ rfl] at h
        exact absurd h (by simp)
    · rw [if_neg hp] at h
      by_cases hk : arg = "\x7bpkg\x7d"
      · rw [if_pos hk] at h
        by_cases hc : allowedPkgArgs.contains v = true
        · rw [if_pos hc] at h
          obtain ⟨hm, hrest⟩ := ih m r h
          refine ⟨hm, ?_⟩
          intro av' hav'
          rcases List.mem_cons.1 hav' with heq | hmem
          · subst heq
            exact ⟨fun hpa => absurd hpa hp, fun _ => hc, fun _ hnk => absurd hk hnk⟩
          · exact hrest av' hmem
        · rw [if_neg hc] at h
          rw [matchArgsAux_false cwd ws wd rest _ rfl] at h
          exact absurd h (by simp)
      · rw [if_neg hk] at h
        by_cases hv : v ≠ arg
        · rw [if_pos hv] at h
          rw [matchArgsAux_false cwd ws wd rest _ rfl] at h
          exact absurd h (by simp)
        · rw [if_neg hv] at h
          have hv' : v = arg := not_not.1 hv
          obtain ⟨hm, hrest⟩ := ih m r h
          refine ⟨hm, ?_⟩
          intro av' hav'
          rcases List.mem_cons.1 hav' with heq | hmem
          · subst heq
            exact ⟨fun hpa => absurd hpa hp, fun hka => absurd hka hk, fun _ _ => hv'⟩
          · exact hrest av' hmem

theorem matchTemplatesAux_true_elim (cwd ws wd : String) (command : List String) :
    ∀ (templates : List CommandTemplate) (lr : String),
      (matchTemplatesAux cwd ws wd command lr templates).1 = true →
      ∃ tmpl ∈ templates, tmpl.exec ≠ "" ∧ command.head? = some tmpl.exec ∧
        command.length - 1 = tmpl.args.length ∧
        ∀ av ∈ tmpl.args.zip command.tail,
          (av.1 = "\x7bpath\x7d" → (isWorkspaceConfined cwd wd ws av.2).1 = true) ∧
          (av.1 = "\x7bpkg\x7d" → allowedPkgArgs.contains av.2 = true) ∧
          (av.1 ≠ "\x7bpath\x7d" → av.1 ≠ "\x7bpkg\x7d" → av.2 = av.1) := by
  intro templates
  induction templates with
  | nil =>
    intro lr h
    simp only [matchTemplatesAux] at h
    by_cases hlr : lr ≠ ""
    · rw [if_pos hlr] at h; simp at h
    · rw [if_neg hlr] at h; simp at h
  | cons tmpl rest ih =>
    intro lr h
    simp only [matchTemplatesAux] at h
    by_cases h1 : tmpl.exec = ""
    · rw [if_pos h1] at h
      obtain ⟨t, ht, hrest⟩ := ih lr h
      exact ⟨t, List.mem_cons_of_mem _ ht, hrest⟩
    · rw [if_neg h1] at h
      by_cases h2 : command.head? ≠ some tmpl.exec
      · rw [if_pos h2] at h
        obtain ⟨t, ht, hrest⟩ := ih lr h
        exact ⟨t, List.mem_cons_of_mem _ ht, hrest⟩
      · rw [if_neg h2] at h
        have h2' : command.head? = some tmpl.exec := not_not.1 h2
        by_cases h3 : command.length - 1 ≠ tmpl.args.length
        · rw [if_pos h3] at h
          obtain ⟨t, ht, hrest⟩ := ih lr h
          exact ⟨t, List.mem_cons_of_mem _ ht, hrest⟩
        · rw [if_neg h3] at h
          have h3' : command.length - 1 = tmpl.args.length := not_not.1 h3
          by_cases h4 : (matchArgsAux cwd ws wd (tmpl.args.zip command.tail) (true, lr)).1 = true
          · refine ⟨tmpl, List.mem_cons_self _ _, h1, h2', h3', ?_⟩
            exact (matchArgsAux_true_elim cwd ws wd (tmpl.args.zip command.tail) true lr h4).2
          · rw [if_neg h4] at h
            obtain ⟨t, ht, hrest⟩ := ih _ h
            exact ⟨t, List.mem_cons_of_mem _ ht, hrest⟩

/-- **C9** (counterexample): the spec says a `\x7bpath\x7d` template argument
"contains no `..` component", but `isWorkspaceConfined` checks the *cleaned*
path for `..` segments, so a raw argument such as `a/../b` — which does contain
a `..` component — is accepted by `matchTemplates`. -/
theorem c9_counterexample :
    (splitPath "a/../b").contains ".." = true ∧
    matchTemplates "/cwd" ["gofmt", "-w", "a/../b"]
      [⟨"gofmt", ["-w", "\x7bpath\x7d"]⟩] "/ws" "" = (true, "") := by
  constructor
  · decide
  · decide

/-- **C9** (amended): when the template list is non-empty, `matchTemplates`
succeeds only if some template has a non-empty exec token equal to `argv[0]`,
the argument count matches exactly, each literal argument matches positionally,
each `\x7bpkg\x7d` argument is one of the three whitelist values, and each
`\x7bpath\x7d` argument passes `isWorkspaceConfined` — which requires a
non-empty workspace root, a non-absolute path, and (after `path.Clean`) a path
that is neither `.` nor contains a `..` segment.  (The `..` check applies to
the cleaned path, not the raw argument: see the counterexample.) -/
theorem c9_amended (cwd ws wd : String) (command : List String)
    (templates : List CommandTemplate) (hne : templates ≠ [])
    (h : (matchTemplates cwd command templates ws wd).1 = true) :
    ∃ tmpl ∈ templates, tmpl.exec ≠ "" ∧ command.head? = some tmpl.exec ∧
      command.length - 1 = tmpl.args.length ∧
      ∀ av ∈ tmpl.args.zip command.tail,
        (av.1 = "\x7bpath\x7d" →
          ws ≠ "" ∧ isAbsPath av.2 = false ∧ cleanPath av.2 ≠ "." ∧
          (splitPath (cleanPath av.2)).contains ".." = false ∧
          (isWorkspaceConfined cwd wd ws av.2).1 = true) ∧
        (av.1 = "\x7bpkg\x7d" → allowedPkgArgs.contains av.2 = true) ∧
        (av.1 ≠ "\x7bpath\x7d" → av.1 ≠ "\x7bpkg\x7d" → av.2 = av.1) := by
  unfold matchTemplates at h
  rw [if_neg (by simpa using hne)] at h
  obtain ⟨t, ht, h1, h2, h3, hargs⟩ := matchTemplatesAux_true_elim cwd ws wd command templates "" h
  refine ⟨t, ht, h1, h2, h3, ?_⟩
  intro av hav
  obtain ⟨hpath, hpkg, hlit⟩ := hargs av hav
  refine ⟨?_, hpkg, hlit⟩
  intro hpa
  have hconf := hpath hpa
  obtain ⟨w0, w1, w2, w3⟩ := isWorkspaceConfined_true_elim cwd wd ws av.2 hconf
  exact ⟨w0, w1, w2, w3, hconf⟩

/-- Witness for `c9_amended` at a concrete accepted command. -/
theorem c9_amended_witness :
    ([⟨"gofmt", ["-w", "\x7bpath\x7d"]⟩] : List CommandTemplate) ≠ [] ∧
    (matchTemplates "/cwd" ["gofmt", "-w", "sub/file.go"]
      [⟨"gofmt", ["-w", "\x7bpath\x7d"]⟩] "/ws" "").1 = true ∧
    (∃ tmpl ∈ ([⟨"gofmt", ["-w", "\x7bpath\x7d"]⟩] : List CommandTemplate),
      tmpl.exec ≠ "" ∧ (["gofmt", "-w", "sub/file.go"] : List String).head? = some tmpl.exec ∧
      (["gofmt", "-w", "sub/file.go"] : List String).length - 1 = tmpl.args.length ∧
      ∀ av ∈ tmpl.args.zip (["gofmt", "-w", "sub/file.go"] : List String).tail,
        (av.1 = "\x7bpath\x7d" →
          "/ws" ≠ "" ∧ isAbsPath av.2 = false ∧ cleanPath av.2 ≠ "." ∧
          (splitPath (cleanPath av.2)).contains ".." = false ∧
          (isWorkspaceConfined "/cwd" "" "/ws" av.2).1 = true) ∧
        (av.1 = "\x7bpkg\x7d" → allowedPkgArgs.contains av.2 = true) ∧
        (av.1 ≠ "\x7bpath\x7d" → av.1 ≠ "\x7bpkg\x7d" → av.2 = av.1)) := by
  refine ⟨by decide, by decide, ?_⟩
  exact c9_amended "/cwd" "/ws" "" ["gofmt", "-w", "sub/file.go"]
    [⟨"gofmt", ["-w", "\x7bpath\x7d"]⟩] (by decide) (by decide)

/-- **C5**: when a failed attempt repeats the previous attempt's
`(violation fingerprint, output hash)` pair, the runner escalates on the
first repeat — marking the repair state escalated, switching to the
fallback model when one is configured, and regenerating the prompt with
the escalation builder — and terminates the stage with a
repair-loop-detected error on a repeat after escalation; attempts whose
output hash differs from the previous attempt's never trigger loop
detection and instead take the normal final-attempt-abort or
repair-prompt path. -/
theorem c5_repair_loop (stage : Stage) (isFinal : Bool) (st : LoopSt) (art : ArtifactM)
    (gateResults : List GateResultEntry) (applyErr gateErr : Option String)
    (sha pref oref : String) (prev : AttemptState)
    (hprev : st.rep.attempts.getLast? = some prev) :
    (fingerprintViolations (consolidateGateFailures gateResults applyErr).violations applyErr
        = prev.violationFingerprint →
      attemptOutputHash art = prev.outputHash →
      st.rep.escalated = false →
      ∃ st', afterFailure stage isFinal st art gateResults applyErr gateErr sha pref oref
          = .continueWith st' ∧
        st'.rep.escalated = true ∧
        st'.model = (if stage.fallbackModel ≠ "" then stage.fallbackModel else st.model) ∧
        st'.prompt = generateEscalationPrompt art
          (consolidateGateFailures gateResults applyErr) stage.apply) ∧
    (fingerprintViolations (consolidateGateFailures gateResults applyErr).violations applyErr
        = prev.violationFingerprint →
      attemptOutputHash art = prev.outputHash →
      st.rep.escalated = true →
      ∃ out, afterFailure stage isFinal st art gateResults applyErr gateErr sha pref oref
          = .finished out ∧
        out.result = none ∧
        out.errMsg = some ("repair loop detected for stage " ++ stage.name ++
          ": fingerprint=" ++
          fingerprintViolations (consolidateGateFailures gateResults applyErr).violations
            applyErr ++
          " outputHash=" ++ attemptOutputHash art ++
          " promptRef=" ++ pref ++ " outputRef=" ++ oref)) ∧
    (attemptOutputHash art ≠ prev.outputHash →
      (isFinal = true →
        ∃ out, afterFailure stage isFinal st art gateResults applyErr gateErr sha pref oref
            = .finished out ∧
          out.result = none ∧
          out.errMsg = some (match applyErr with
            | some ae => ae
            | none => match gateErr with
              | some ge => ge
              | none => "stage " ++ stage.name ++ " failed")) ∧
      (isFinal = false →
        ∃ st', afterFailure stage isFinal st art gateResults applyErr gateErr sha pref oref
            = .continueWith st' ∧
          st'.prompt = generateRepairPrompt art
            (consolidateGateFailures gateResults applyErr) ∧
          st'.rep.escalated = st.rep.escalated)) := by
  refine ⟨?_, ?_, ?_⟩
  · intro hfp hoh hesc
    simp only [afterFailure, hprev]
    rw [if_pos (by rw [hfp, hoh]; simp)]
    simp only [hesc, Bool.not_false, if_true]
    exact ⟨_, rfl, rfl, rfl, rfl⟩
  · intro hfp hoh hesc
    simp only [afterFailure, hprev]
    rw [if_pos (by rw [hfp, hoh]; simp)]
    simp only [hesc, Bool.not_true]
    exact ⟨_, rfl, rfl, rfl⟩
  · intro hneq
    constructor
    · intro hfin
      subst hfin
      simp only [afterFailure, hprev]
      rw [if_neg (by simp [hneq])]
      simp only [if_true]
      exact ⟨_, rfl, rfl, rfl⟩
    · intro hfin
      subst hfin
      simp only [afterFailure, hprev]
      rw [if_neg (by simp [hneq])]
      simp only [Bool.false_eq_true, if_false]
      exact ⟨_, rfl, rfl, rfl⟩

/-- Witness for `c5_repair_loop`: the repeat scenario before escalation
(fallback model taken), the repeat after escalation (loop error), and a
fresh output hash (no loop, repair prompt). -/
theorem c5_repair_loop_witness :
    (stRepeat.rep.attempts.getLast? = some prevW ∧
      ∃ st', afterFailure stageFallback false stRepeat artRepeat [] (some "boom") none
          "ph2" "pr" "or" = .continueWith st' ∧
        st'.rep.escalated = true ∧
        st'.model = (if stageFallback.fallbackModel ≠ "" then stageFallback.fallbackModel
          else stRepeat.model) ∧
        st'.prompt = generateEscalationPrompt artRepeat
          (consolidateGateFailures [] (some "boom")) stageFallback.apply) ∧
    (stRepeatEsc.rep.attempts.getLast? = some prevW ∧
      ∃ out, afterFailure stageFallback false stRepeatEsc artRepeat [] (some "boom") none
          "ph2" "pr" "or" = .finished out ∧
        out.result = none ∧
        out.errMsg = some ("repair loop detected for stage " ++ stageFallback.name ++
          ": fingerprint=" ++
          fingerprintViolations (consolidateGateFailures [] (some "boom")).violations
            (some "boom") ++
          " outputHash=" ++ attemptOutputHash artRepeat ++
          " promptRef=" ++ "pr" ++ " outputRef=" ++ "or")) ∧
    (attemptOutputHash artFresh ≠ prevW.outputHash ∧
      ∃ st', afterFailure stageFallback false stRepeat artFresh [] (some "boom") none
          "ph2" "pr" "or" = .continueWith st' ∧
        st'.prompt = generateRepairPrompt artFresh
          (consolidateGateFailures [] (some "boom")) ∧
        st'.rep.escalated = stRepeat.rep.escalated) := by
  have hneq : attemptOutputHash artFresh ≠ prevW.outputHash := by decide
  refine ⟨⟨rfl, ?_⟩, ⟨rfl, ?_⟩, ⟨hneq, ?_⟩⟩
  · exact (c5_repair_loop stageFallback false stRepeat artRepeat [] (some "boom") none
      "ph2" "pr" "or" prevW rfl).1 rfl rfl rfl
  · exact (c5_repair_loop stageFallback false stRepeatEsc artRepeat [] (some "boom") none
      "ph2" "pr" "or" prevW rfl).2.1 rfl rfl rfl
  · exact ((c5_repair_loop stageFallback false stRepeat artFresh [] (some "boom") none
      "ph2" "pr" "or" prevW rfl).2.2 hneq).2 rfl

/-- **C1** (code defect): with one retry allowed and a backend that
returns identical content for both attempts against an always-failing
gate, both attempts fail, yet `runStage` returns a stage result with a
nil error.  The loop-detection branch of the final attempt escalates and
continues, the loop then exits with `lastErr == nil`, and the
post-loop path packages the failing artifact as a success — contradicting
"when the final allotted attempt fails the stage aborts with the
apply/gate error" and "produces exactly one successful Artifact or
terminates the pipeline with failure". -/
theorem c1_final_attempt_swallowed :
    (runStage envSame [] stageTwoAttempts [("a", ⟨["m"]⟩)] pipeFailing "/ws"
        false false).errMsg = none ∧
    (runStage envSame [] stageTwoAttempts [("a", ⟨["m"]⟩)] pipeFailing "/ws"
        false false).result.isSome = true ∧
    ((runStage envSame [] stageTwoAttempts [("a", ⟨["m"]⟩)] pipeFailing "/ws"
        false false).record.attempts.map (fun a => a.succeeded)) = [false, false] := by
  refine ⟨by decide, by decide, by decide⟩

/-- **C3** (counterexample): the missing approval is *not* fatal.  With a
retry allowed, the attempt fails with the approval error but feeds the
repair loop: a second backend Generate call is made after the failure is
observed, and only when retries are exhausted does the stage terminate
with the approval error.  (No filesystem change ever occurs.) -/
theorem c3_counterexample :
    ((runStage envVarying [] stageApplyRetry [("a", ⟨["m"]⟩)] pipeNoGates "/ws"
        true false).trace.filter isGenerateEvent) = [.generateCall 1, .generateCall 2] ∧
    (runStage envVarying [] stageApplyRetry [("a", ⟨["m"]⟩)] pipeNoGates "/ws"
        true false).errMsg = some "apply for real requires explicit approval" ∧
    ((runStage envVarying [] stageApplyRetry [("a", ⟨["m"]⟩)] pipeNoGates "/ws"
        true false).trace.filter isFsChangeEvent) = [] := by
  refine ⟨by decide, by decide, by decide⟩

/-- **C3** (amended): when `apply_for_real` is set without approval, the
attempt itself fails with the approval error and `applyIfNeeded` performs
no clone and no apply (empty event list); the stage terminates with that
error only once retries are exhausted — immediately when `max_retries`
is 0 — rather than aborting on first observation. -/
theorem c3_amended (env : StageEnv) (attempt : Nat) (stage : Stage) (wsPath : String)
    (art : ArtifactM) (happly : stage.apply = true) :
    applyIfNeeded env attempt stage wsPath art true false =
      (none, wsPath, "real", some "apply for real requires explicit approval", []) ∧
    (runStage envVarying [] stageApplyNoRetry [("a", ⟨["m"]⟩)] pipeNoGates "/ws"
        true false).errMsg = some "apply for real requires explicit approval" ∧
    ((runStage envVarying [] stageApplyNoRetry [("a", ⟨["m"]⟩)] pipeNoGates "/ws"
        true false).trace.filter isGenerateEvent) = [.generateCall 1] ∧
    ((runStage envVarying [] stageApplyNoRetry [("a", ⟨["m"]⟩)] pipeNoGates "/ws"
        true false).trace.filter isFsChangeEvent) = [] := by
  refine ⟨?_, by decide, by decide, by decide⟩
  simp [applyIfNeeded, happly]

/-- Witness for `c3_amended` at the concrete apply stage. -/
theorem c3_amended_witness :
    stageApplyRetry.apply = true ∧
    (applyIfNeeded envVarying 1 stageApplyRetry "/ws" artPlain true false =
      (none, "/ws", "real", some "apply for real requires explicit approval", []) ∧
    (runStage envVarying [] stageApplyNoRetry [("a", ⟨["m"]⟩)] pipeNoGates "/ws"
        true false).errMsg = some "apply for real requires explicit approval" ∧
    ((runStage envVarying [] stageApplyNoRetry [("a", ⟨["m"]⟩)] pipeNoGates "/ws"
        true false).trace.filter isGenerateEvent) = [.generateCall 1] ∧
    ((runStage envVarying [] stageApplyNoRetry [("a", ⟨["m"]⟩)] pipeNoGates "/ws"
        true false).trace.filter isFsChangeEvent) = []) :=
  ⟨by decide, c3_amended envVarying 1 stageApplyRetry "/ws" artPlain (by decide)⟩

/-- **C7** (counterexample): the unknown-capability abort is *not* free of
side effects.  The error is raised inside gate evaluation of the first
attempt, after the backend Generate call and three blob writes; for an
apply stage even the temp-clone apply runs before the error. -/
theorem c7_counterexample :
    (runStage envPlain [] stageUnknownCap [("a", ⟨["m"]⟩)] pipeUnknownCap "/ws"
        false false).errMsg = some "unknown capability nope" ∧
    ((runStage envPlain [] stageUnknownCap [("a", ⟨["m"]⟩)] pipeUnknownCap "/ws"
        false false).trace.filter isGenerateEvent) = [.generateCall 1] ∧
    ((runStage envPlain [] stageUnknownCap [("a", ⟨["m"]⟩)] pipeUnknownCap "/ws"
        false false).trace.filter isBlobEvent) =
      [.blobWrite "prompt", .blobWrite "attempt-prompt", .blobWrite "attempt-output"] ∧
    ((runStage envPlain [] stageUnknownCapApply [("a", ⟨["m"]⟩)] pipeUnknownCap "/ws"
        false false).trace.filter isFsChangeEvent) =
      [.cloneTemp 1, .applyOutputCall 1] := by
  refine ⟨by decide, by decide, by decide, by decide⟩

/-- **C7** (amended): a gate naming an unknown capability (or an
unsupported gate type) does make `buildGateInstances` fail with the
corresponding fatal error, and `evaluateGates` propagates it with no gate
results — but the error arises during gate evaluation of an attempt, not
before the attempt's Generate call, blob writes, or workspace apply. -/
theorem c7_amended (pipe : PipelineM) (name : String) (gdef : GateDefinition)
    (ws : String) (appr : Bool) (rest : List String)
    (hname : name ≠ "hollowcheck") (hlook : pipe.gates.lookup name = some gdef) :
    (toLowerStr gdef.type = "command" → gdef.capability ≠ "" →
      templatesForCapability gdef.capability = none →
      buildGateInstances pipe (name :: rest) ws appr =
        .error ("unknown capability " ++ gdef.capability)) ∧
    (toLowerStr gdef.type ≠ "hollowcheck" → toLowerStr gdef.type ≠ "command" →
      buildGateInstances pipe (name :: rest) ws appr =
        .error ("unsupported gate type " ++ gdef.type)) ∧
    (∀ (env : StageEnv) (attempt : Nat) (stage : Stage) (e : String),
      stage.gates = name :: rest →
      buildGateInstances pipe (name :: rest) ws appr = .error e →
      evaluateGates env attempt stage pipe ws appr = ([], some e)) := by
  refine ⟨?_, ?_, ?_⟩
  · intro hty hcap hnone
    simp only [buildGateInstances, hlook]
    rw [if_neg hname, hty]
    rw [if_neg (by decide), if_pos rfl]
    rw [if_pos hcap, hnone]
  · intro hty1 hty2
    simp only [buildGateInstances, hlook]
    rw [if_neg hname]
    rw [if_neg hty1, if_neg hty2]
  · intro env attempt stage e hg hb
    unfold evaluateGates
    rw [hg, hb]
    simp

/-- Witness for `c7_amended` at the unknown-capability pipeline. -/
theorem c7_amended_witness :
    ("g" : String) ≠ "hollowcheck" ∧
    pipeUnknownCap.gates.lookup "g" = some gdefUnknownCap ∧
    ((toLowerStr gdefUnknownCap.type = "command" → gdefUnknownCap.capability ≠ "" →
      templatesForCapability gdefUnknownCap.capability = none →
      buildGateInstances pipeUnknownCap ["g"] "/ws" false =
        .error ("unknown capability " ++ gdefUnknownCap.capability)) ∧
    (toLowerStr gdefUnknownCap.type ≠ "hollowcheck" →
      toLowerStr gdefUnknownCap.type ≠ "command" →
      buildGateInstances pipeUnknownCap ["g"] "/ws" false =
        .error ("unsupported gate type " ++ gdefUnknownCap.type)) ∧
    (∀ (env : StageEnv) (attempt : Nat) (stage : Stage) (e : String),
      stage.gates = ["g"] →
      buildGateInstances pipeUnknownCap ["g"] "/ws" false = .error e →
      evaluateGates env attempt stage pipeUnknownCap "/ws" false = ([], some e))) :=
  ⟨by decide, by decide,
    c7_amended pipeUnknownCap "g" gdefUnknownCap "/ws" false [] (by decide) (by decide)⟩

/-! ### Idempotence of `cleanPath`, used by the attestation round trip -/

theorem cleanSegsAux_replicate_dd :
    ∀ (m k : Nat), cleanSegsAux false (List.replicate k "..") (List.replicate m "..") =
      List.replicate (k + m) ".." := by
  intro m
  induction m with
  | zero => intro k; simp [cleanSegsAux]
  | succ m ih =>
    intro k
    rw [List.replicate_succ]
    simp only [cleanSegsAux]
    rw [if_neg (by simp)]
    rw [if_pos trivial]
    have hdd : ddStep false (List.replicate k "..") = List.replicate (k + 1) ".." := by
      cases k with
      | zero => simp [ddStep]
      | succ k' => simp [List.replicate_succ, ddStep]
    rw [hdd, ih (k + 1)]
    congr 1
    omega

theorem cleanSegs_dd_plain (m : Nat) (P : List String) (hP : ∀ x ∈ P, PlainSeg x) :
    cleanSegs false (List.replicate m ".." ++ P) = List.replicate m ".." ++ P := by
  unfold cleanSegs
  rw [cleanSegsAux_append_plain (List.replicate m "..") false [] P hP]
  have h0 : cleanSegsAux false [] (List.replicate m "..") = List.replicate m ".." := by
    simpa using cleanSegsAux_replicate_dd m 0
  rw [h0, List.reverse_append, List.reverse_reverse, List.reverse_replicate]

theorem mem_cleanSegs_free (rooted : Bool) (q : String) :
    ∀ x ∈ cleanSegs rooted (splitPath q), x ≠ "" ∧ ('/' : Char) ∉ x.data := by
  intro x hx
  rcases mem_cleanSegs rooted (splitPath q) x hx with hdd | ⟨hm, hp⟩
  · subst hdd; exact ⟨by decide, by decide⟩
  · exact ⟨hp.1, mem_splitPath_no_slash q x hm⟩

theorem cleanPath_rooted_idem (cs : List String)
    (hplain : ∀ x ∈ cs, PlainSeg x) (hfree : ∀ x ∈ cs, ('/' : Char) ∉ x.data) :
    cleanPath ("/" ++ joinSegs cs) = "/" ++ joinSegs cs := by
  have habs2 : isAbsPath ("/" ++ joinSegs cs) = true := isAbsPath_slash_append _
  rw [cleanPath_rooted_eq _ habs2, splitPath_rooted, cleanSegs_cons_empty]
  cases cs with
  | nil => decide
  | cons c cs' =>
    rw [splitPath_joinSegs _ (by simp) (fun x hx => hfree x hx),
      cleanSegs_plain_id true _ hplain]

theorem cleanPath_unrooted_idem (m : Nat) (P : List String)
    (hplain : ∀ x ∈ P, PlainSeg x)
    (hfree : ∀ x ∈ (List.replicate m ".." ++ P), ('/' : Char) ∉ x.data)
    (hne : List.replicate m ".." ++ P ≠ []) :
    cleanPath (joinSegs (List.replicate m ".." ++ P)) =
      joinSegs (List.replicate m ".." ++ P) := by
  have hfree' : ∀ x ∈ List.replicate m ".." ++ P, x ≠ "" ∧ ('/' : Char) ∉ x.data := by
    intro x hx
    refine ⟨?_, hfree x hx⟩
    rcases List.mem_append.1 hx with h' | h'
    · rw [List.eq_of_mem_replicate h']; decide
    · exact (hplain x h').1
  have habs : isAbsPath (joinSegs (List.replicate m ".." ++ P)) = false :=
    isAbsPath_joinSegs_false _ hfree'
  have hjne : joinSegs (List.replicate m ".." ++ P) ≠ "" := by
    cases hLc : List.replicate m ".." ++ P with
    | nil => exact absurd hLc hne
    | cons a t =>
      refine joinSegs_ne_empty a t ?_
      exact (hfree' a (by rw [hLc]; exact List.mem_cons_self a t)).1
  rw [cleanPath_unrooted_eq _ hjne habs,
    splitPath_joinSegs _ hne (fun x hx => (hfree' x hx).2),
    cleanSegs_dd_plain m P hplain,
    if_neg (by simpa using hne)]

theorem cleanPath_idem (s : String) : cleanPath (cleanPath s) = cleanPath s := by
  by_cases hs : s = ""
  · subst hs; decide
  by_cases habs : isAbsPath s = true
  · rw [cleanPath_rooted_eq s habs]
    refine cleanPath_rooted_idem (cleanSegs true (splitPath s)) ?_ ?_
    · intro x hx
      rcases mem_cleanSegs true (splitPath s) x hx with hdd | ⟨_, hp⟩
      · exact absurd (hdd ▸ hx) (cleanSegs_no_dd_rooted _)
      · exact hp
    · intro x hx; exact (mem_cleanSegs_free true s x hx).2
  · have habs' : isAbsPath s = false := by simpa using habs
    rw [cleanPath_unrooted_eq s hs habs']
    by_cases hie : (cleanSegs false (splitPath s)).isEmpty = true
    · rw [if_pos hie]; decide
    · rw [if_neg hie]
      obtain ⟨m, P, heq, hPdd, -⟩ := cleanSegs_dd false (splitPath s)
      have hplain : ∀ x ∈ P, PlainSeg x := by
        intro x hx
        have hx' : x ∈ cleanSegs false (splitPath s) := by
          rw [heq]; exact List.mem_append.2 (Or.inr hx)
        rcases mem_cleanSegs false (splitPath s) x hx' with hdd | ⟨_, hp⟩
        · exact absurd (hdd ▸ hx) hPdd
        · exact hp
      have hfree : ∀ x ∈ List.replicate m ".." ++ P, ('/' : Char) ∉ x.data := by
        intro x hx
        refine (mem_cleanSegs_free false s x ?_).2
        rw [heq]; exact hx
      have hne : List.replicate m ".." ++ P ≠ [] := by
        intro h0
        rw [heq, h0] at hie
        exact hie rfl
      rw [heq]
      exact cleanPath_unrooted_idem m P hplain hfree hne

theorem cleanPath_ne_empty (s : String) : cleanPath s ≠ "" := by
  by_cases hs : s = ""
  · rw [hs]; decide
  by_cases habs : isAbsPath s = true
  · rw [cleanPath_rooted_eq s habs]
    intro h
    have hd := congrArg String.data h
    rw [String.data_append] at hd
    simp at hd
  · have habs' : isAbsPath s = false := by simpa using habs
    rw [cleanPath_unrooted_eq s hs habs']
    by_cases hie : (cleanSegs false (splitPath s)).isEmpty = true
    · rw [if_pos hie]; decide
    · rw [if_neg hie]
      cases hc : cleanSegs false (splitPath s) with
      | nil => rw [hc] at hie; exact absurd rfl hie
      | cons a t =>
        have ha : a ≠ "" :=
          (mem_cleanSegs_free false s a (by rw [hc]; exact List.mem_cons_self a t)).1
        exact joinSegs_ne_empty a t ha

theorem joinPath_ne_empty (a b : String) (ha : a ≠ "") : joinPath a b ≠ "" := by
  unfold joinPath
  rw [if_neg (by simp [ha]), if_neg ha]
  by_cases hb : b = ""
  · rw [if_pos hb]; exact cleanPath_ne_empty a
  · rw [if_neg hb]; exact cleanPath_ne_empty _

theorem joinPath_clean (a b : String) (ha : a ≠ "") :
    cleanPath (joinPath a b) = joinPath a b := by
  unfold joinPath
  rw [if_neg (by simp [ha]), if_neg ha]
  by_cases hb : b = ""
  · rw [if_pos hb]; exact cleanPath_idem a
  · rw [if_neg hb]; exact cleanPath_idem _

/-! ### Attestation lemmas -/

theorem lookup_mem {β : Type} : ∀ (l : List (String × β)) (k : String) (v : β),
    l.lookup k = some v → (k, v) ∈ l := by
  intro l
  induction l with
  | nil => intro k v h; simp [List.lookup] at h
  | cons e t ih =>
    intro k v h
    obtain ⟨k', v'⟩ := e
    by_cases hk : k = k'
    · subst hk
      simp only [List.lookup, beq_self_eq_true, Option.some.injEq] at h
      subst h
      exact List.mem_cons_self _ _
    · have hbeq : (k == k') = false := by simp [hk]
      simp only [List.lookup, hbeq] at h
      exact List.mem_cons_of_mem _ (ih k v h)

theorem attSafeJoin_ok_clean (rel c : String) (h : attSafeJoin rel = .ok c) :
    c = cleanPath rel ∧ attSafeJoin rel = .ok (cleanPath rel) := by
  simp only [attSafeJoin] at h ⊢
  by_cases h0 : rel = ""
  · rw [if_pos h0] at h; exact absurd h (by simp)
  rw [if_neg h0] at h ⊢
  by_cases h1 : isAbsPath rel = true
  · rw [if_pos h1] at h; exact absurd h (by simp)
  rw [if_neg h1] at h ⊢
  by_cases h2 : (splitPath rel).contains ".." = true
  · rw [if_pos h2] at h; exact absurd h (by simp)
  rw [if_neg h2] at h ⊢
  by_cases h3 : cleanPath rel = "."
  · rw [if_pos h3] at h; exact absurd h (by simp)
  rw [if_neg h3] at h ⊢
  simp at h
  exact ⟨h.symm, rfl⟩

section AttestProofs

variable {D : Type}

theorem addHash_ok_inv (h : List Nat → D) (fs : FS) (st st' : List (String × D)) (rel : String)
    (hinv : HashInv h fs st) (hok : addHash h fs st rel = .ok st') : HashInv h fs st' := by
  simp only [addHash] at hok
  by_cases h0 : rel = ""
  · rw [if_pos h0] at hok; simp at hok; exact hok ▸ hinv
  rw [if_neg h0] at hok
  by_cases h1 : (st.lookup rel).isSome = true
  · rw [if_pos h1] at hok; simp at hok; exact hok ▸ hinv
  rw [if_neg h1] at hok
  cases hsj : attSafeJoin rel with
  | error e => rw [hsj] at hok; simp at hok
  | ok clean =>
    rw [hsj] at hok
    obtain ⟨hceq, hsj'⟩ := attSafeJoin_ok_clean rel clean hsj
    subst hceq
    dsimp only at hok
    cases hlk : fs.lookup (cleanPath rel) with
    | none => rw [hlk] at hok; simp at hok
    | some data =>
      rw [hlk] at hok
      simp at hok
      subst hok
      intro p hp
      rcases List.mem_append.1 hp with hmem | hmem
      · exact hinv p hmem
      · rw [List.mem_singleton] at hmem
        subst hmem
        exact ⟨data, hsj', hlk, rfl⟩

theorem addHash_ok_ref (h : List Nat → D) (fs : FS) (st st' : List (String × D)) (rel : String)
    (h0 : rel ≠ "") (hok : addHash h fs st rel = .ok st') :
    (st.lookup rel).isSome = true ∨
      (attSafeJoin rel = .ok (cleanPath rel) ∧ ∃ data, fs.lookup (cleanPath rel) = some data) := by
  simp only [addHash] at hok
  rw [if_neg h0] at hok
  by_cases h1 : (st.lookup rel).isSome = true
  · exact Or.inl h1
  rw [if_neg h1] at hok
  cases hsj : attSafeJoin rel with
  | error e => rw [hsj] at hok; simp at hok
  | ok clean =>
    rw [hsj] at hok
    obtain ⟨hceq, hsj'⟩ := attSafeJoin_ok_clean rel clean hsj
    subst hceq
    dsimp only at hok
    cases hlk : fs.lookup (cleanPath rel) with
    | none => rw [hlk] at hok; simp at hok
    | some data => exact Or.inr ⟨rfl, data, rfl⟩

theorem addHashList_inv (h : List Nat → D) (fs : FS) :
    ∀ (rels : List String) (st st' : List (String × D)),
      HashInv h fs st → addHashList h fs rels st = .ok st' → HashInv h fs st' := by
  intro rels
  induction rels with
  | nil =>
    intro st st' hinv hok
    simp only [addHashList] at hok
    simp at hok
    exact hok ▸ hinv
  | cons r rest ih =>
    intro st st' hinv hok
    simp only [addHashList] at hok
    cases ha : addHash h fs st r with
    | error e => rw [ha] at hok; simp at hok
    | ok st1 =>
      rw [ha] at hok
      exact ih st1 st' (addHash_ok_inv h fs st st1 r hinv ha) hok

theorem checkHashes_ok_of_inv [DecidableEq D] (h : List Nat → D) (fs : FS) :
    ∀ st : List (String × D), HashInv h fs st → checkHashes h fs st = .ok () := by
  intro st
  induction st with
  | nil => intro _; rfl
  | cons q rest ih =>
    intro hinv
    obtain ⟨rel, d⟩ := q
    obtain ⟨data, hsj, hlk, hpd⟩ := hinv (rel, d) (List.mem_cons_self _ _)
    dsimp only at hsj hlk hpd
    simp only [checkHashes]
    rw [hsj]
    dsimp only
    rw [hlk]
    dsimp only
    rw [hpd, if_neg (by simp)]
    exact ih fun q hq => hinv q (List.mem_cons_of_mem _ hq)

theorem tamperFS_lookup_self (p : String) (b : List Nat) :
    ∀ (fs : FS) (d : List Nat), fs.lookup p = some d → (tamperFS fs p b).lookup p = some b := by
  intro fs
  induction fs with
  | nil => intro d h; simp [List.lookup] at h
  | cons e t ih =>
    intro d h
    obtain ⟨k, v⟩ := e
    simp only [tamperFS, List.map]
    by_cases hk : k = p
    · subst hk
      rw [if_pos rfl]
      simp [List.lookup]
    · rw [if_neg hk]
      have hbeq : (p == k) = false := by simp; exact fun hh => hk hh.symm
      simp only [List.lookup, hbeq] at h ⊢
      exact ih d h

theorem tamperFS_lookup_ne (p q : String) (b : List Nat) (hq : q ≠ p) :
    ∀ fs : FS, (tamperFS fs p b).lookup q = fs.lookup q := by
  intro fs
  induction fs with
  | nil => rfl
  | cons e t ih =>
    obtain ⟨k, v⟩ := e
    simp only [tamperFS, List.map] at ih ⊢
    by_cases hk : k = p
    · subst hk
      rw [if_pos rfl]
      have hbeq : (q == k) = false := by simp [hq]
      simp only [List.lookup, hbeq]
      exact ih
    · rw [if_neg hk]
      by_cases hqk : q = k
      · subst hqk
        simp [List.lookup]
      · have hbeq : (q == k) = false := by simp [hqk]
        simp only [List.lookup, hbeq]
        exact ih

theorem checkHashes_tamper [DecidableEq D] (h : List Nat → D) (hinj : Function.Injective h) (fs : FS)
    (tgt : String) (data b : List Nat) (hdata : fs.lookup tgt = some data) (hb : b ≠ data) :
    ∀ st : List (String × D), HashInv h fs st → (∃ p ∈ st, cleanPath p.1 = tgt) →
      ∃ r, checkHashes h (tamperFS fs tgt b) st = .error (.hashMismatch r) := by
  intro st
  induction st with
  | nil =>
    intro _ hex
    obtain ⟨p, hp, _⟩ := hex
    exact absurd hp (List.not_mem_nil _)
  | cons q rest ih =>
    intro hinv hex
    obtain ⟨rel, d⟩ := q
    obtain ⟨data', hsj, hlk, hpd⟩ := hinv (rel, d) (List.mem_cons_self _ _)
    dsimp only at hsj hlk hpd
    simp only [checkHashes]
    rw [hsj]
    dsimp only
    by_cases hc : cleanPath rel = tgt
    · rw [hc, tamperFS_lookup_self tgt b fs data hdata]
      dsimp only
      have hdd : data' = data := by
        rw [hc] at hlk
        injection hlk.symm.trans hdata
      have hcond : h b ≠ d := by
        rw [hpd, hdd]
        intro hhb
        exact hb (hinj hhb)
      exact ⟨rel, by rw [if_pos hcond]⟩
    · rw [tamperFS_lookup_ne tgt (cleanPath rel) b hc fs, hlk]
      dsimp only
      have hcond : ¬h data' ≠ d := by rw [hpd]; simp
      rw [if_neg hcond]
      refine ih (fun q hq => hinv q (List.mem_cons_of_mem _ hq)) ?_
      obtain ⟨p, hp, hpt⟩ := hex
      rcases List.mem_cons.1 hp with heq | hmem
      · exfalso
        rw [heq] at hpt
        exact hc hpt
      · exact ⟨p, hmem, hpt⟩

end AttestProofs

theorem sortClaims_idem (l : List GateClaim) : sortClaims (sortClaims l) = sortClaims l :=
  List.Sorted.insertionSort_eq (List.sorted_insertionSort claimLE l)

theorem sortClaims_length (l : List GateClaim) : (sortClaims l).length = l.length :=
  List.length_insertionSort claimLE l

theorem compareGateClaims_refl : ∀ l : List GateClaim, compareGateClaims l l = .ok () := by
  intro l
  induction l with
  | nil => rfl
  | cons a t ih =>
    simp only [compareGateClaims]
    rw [if_neg (by simp)]
    exact ih

theorem verifyClaim_roundtrip {D : Type} [DecidableEq D] (sr : StageRecA) (subj : SubjectA)
    (ev : EvidenceA) (hs : List (String × D)) :
    verifyClaim
      { schema := "flowgate.attestation.v0", subject := subj
        claim :=
          { passed := sr.gateResults.all (·.passed)
            gateCount := (sortClaims (sr.gateResults.map toGateClaim)).length
            gated := decide ((sortClaims (sr.gateResults.map toGateClaim)).length > 0)
            gates := sortClaims (sr.gateResults.map toGateClaim) }
        evidence := ev, hashes := hs } sr .v0 = .ok () := by
  have hlen : (sortClaims (sr.gateResults.map toGateClaim)).length = sr.gateResults.length := by
    rw [sortClaims_length, List.length_map]
  by_cases hnil : sr.gateResults = []
  · simp [verifyClaim, hnil, sortClaims, List.insertionSort, compareGateClaims]
  · have hpos : 0 < sr.gateResults.length := List.length_pos.2 hnil
    simp [verifyClaim, hlen, hpos, sortClaims_idem, compareGateClaims_refl]

/-- **C2**: the attestation round trip.  When `BuildAttestation` succeeds,
`VerifyAttestation` of the produced attestation against the same run
directory succeeds; and replacing the content of any file referenced in
the attestation's hash table (run.json, the stage JSON, a blob or a gate
log) with different bytes makes `VerifyAttestation` fail with a hash
mismatch.  The digest is an arbitrary injective function, standing for
collision-free SHA-256. -/
theorem c2_attestation_roundtrip {D : Type} [DecidableEq D] (h : List Nat → D)
    (hinj : Function.Injective h) (parseRun : List Nat → Option RunRecA)
    (parseStage : List Nat → Option StageRecA) (fs : FS) (runDir stageName : String)
    (att : AttestationV0 D)
    (hb : buildAttestation h parseRun parseStage fs runDir stageName = .ok att) :
    verifyAttestation h parseStage att fs runDir = .ok () ∧
    (∀ (rel : String) (d : D) (b data : List Nat), (rel, d) ∈ att.hashes →
      fs.lookup (cleanPath rel) = some data → b ≠ data →
      ∃ r, verifyAttestation h parseStage att (tamperFS fs (cleanPath rel) b) runDir =
        .error (.hashMismatch r)) := by
  simp only [buildAttestation] at hb
  by_cases h0 : runDir = ""
  · rw [if_pos h0] at hb; exact absurd hb (by simp)
  rw [if_neg h0] at hb
  by_cases h1 : stageName = ""
  · rw [if_pos h1] at hb; exact absurd hb (by simp)
  rw [if_neg h1] at hb
  cases hrun : fs.lookup "run.json" with
  | none => rw [hrun] at hb; exact absurd hb (by simp)
  | some runData =>
  rw [hrun] at hb
  dsimp only at hb
  cases hstg : fs.lookup (joinPath "stages" (stageName ++ ".json")) with
  | none => rw [hstg] at hb; exact absurd hb (by simp)
  | some stageData =>
  rw [hstg] at hb
  dsimp only at hb
  cases hpr : parseRun runData with
  | none => rw [hpr] at hb; exact absurd hb (by simp)
  | some runRecord =>
  rw [hpr] at hb
  dsimp only at hb
  cases hps : parseStage stageData with
  | none => rw [hps] at hb; exact absurd hb (by simp)
  | some stageRecord =>
  rw [hps] at hb
  dsimp only at hb
  cases hhl : addHashList h fs ("run.json" :: joinPath "stages" (stageName ++ ".json") ::
      (collectStageBlobs stageRecord ++ findGateLogs fs stageName)) [] with
  | error e => rw [hhl] at hb; exact absurd hb (by simp)
  | ok hs =>
  rw [hhl] at hb
  dsimp only at hb
  simp only [Except.ok.injEq] at hb
  subst hb
  have hinv : HashInv h fs hs :=
    addHashList_inv h fs _ [] hs (fun p hp => absurd hp (List.not_mem_nil _)) hhl
  have hspne : joinPath "stages" (stageName ++ ".json") ≠ "" :=
    joinPath_ne_empty _ _ (by decide)
  have hspc : cleanPath (joinPath "stages" (stageName ++ ".json")) =
      joinPath "stages" (stageName ++ ".json") := joinPath_clean _ _ (by decide)
  simp only [addHashList] at hhl
  cases ha1 : addHash h fs [] "run.json" with
  | error e => rw [ha1] at hhl; simp at hhl
  | ok st1 =>
  rw [ha1] at hhl
  dsimp only at hhl
  cases ha2 : addHash h fs st1 (joinPath "stages" (stageName ++ ".json")) with
  | error e => rw [ha2] at hhl; simp at hhl
  | ok st2 =>
  have hst1 : st1 = [("run.json", h runData)] := by
    have hx := ha1
    simp only [addHash] at hx
    rw [if_neg (by decide), if_neg (by simp [List.lookup])] at hx
    have hsj : attSafeJoin "run.json" = .ok "run.json" := by decide
    rw [hsj] at hx
    dsimp only at hx
    rw [hrun] at hx
    dsimp only at hx
    simp at hx
    exact hx.symm
  have hsref : attSafeJoin (joinPath "stages" (stageName ++ ".json")) =
      .ok (cleanPath (joinPath "stages" (stageName ++ ".json"))) := by
    rcases addHash_ok_ref h fs st1 st2 _ hspne ha2 with hlk | ⟨hok, -⟩
    · rw [hst1] at hlk
      have heq : joinPath "stages" (stageName ++ ".json") = "run.json" := by
        by_contra hne
        have hbeq : ((joinPath "stages" (stageName ++ ".json")) == "run.json") = false := by
          simp [hne]
        simp [List.lookup, hbeq] at hlk
      rw [heq]
      decide
    · exact hok
  have hslk : fs.lookup (cleanPath (joinPath "stages" (stageName ++ ".json"))) =
      some stageData := by
    rw [hspc]
    exact hstg
  have hschema : parseSchemaMode "flowgate.attestation.v0" = .ok .v0 := by decide
  constructor
  · simp only [verifyAttestation]
    rw [if_neg h0]
    rw [hschema]
    dsimp only
    rw [checkHashes_ok_of_inv h fs hs hinv]
    dsimp only
    rw [hsref]
    dsimp only
    rw [hslk]
    dsimp only
    rw [hps]
    dsimp only
    exact verifyClaim_roundtrip stageRecord _ _ hs
  · intro rel d b data hmem hlkc hbne
    simp only [verifyAttestation]
    rw [if_neg h0]
    rw [hschema]
    dsimp only
    obtain ⟨r, hr⟩ :=
      checkHashes_tamper h hinj fs (cleanPath rel) data b hlkc hbne hs hinv ⟨(rel, d), hmem, rfl⟩
    refine ⟨r, ?_⟩
    rw [hr]

/-- Witness for `c2_attestation_roundtrip`: the identity digest over a
two-file run directory. -/
theorem c2_attestation_roundtrip_witness :
    Function.Injective (fun b : List Nat => b) ∧
    buildAttestation (fun b : List Nat => b) parseRunW parseStageW fsW "rd" "s" = .ok attW ∧
    (verifyAttestation (fun b : List Nat => b) parseStageW attW fsW "rd" = .ok () ∧
      (∀ (rel : String) (d : List Nat) (b data : List Nat), (rel, d) ∈ attW.hashes →
        fsW.lookup (cleanPath rel) = some data → b ≠ data →
        ∃ r, verifyAttestation (fun b : List Nat => b) parseStageW attW
            (tamperFS fsW (cleanPath rel) b) "rd" = .error (.hashMismatch r))) := by
  refine ⟨fun a b hab => hab, by decide, ?_⟩
  exact c2_attestation_roundtrip (fun b : List Nat => b) (fun a b hab => hab)
    parseRunW parseStageW fsW "rd" "s" attW (by decide)

end Flowgate
